import Mathlib

/-!
Verification development for the CivicMindAI query-routing and response-caching
pipeline (repository files `src/app.py` and `src/cag.py`).

Python strings are modelled as lists of characters (`Str`); the Python string
primitives used by the sources (`lower`, `strip`, `split`/`join`, `replace`,
the `in` substring test, `title`) are given executable models in the `Py`
namespace.  Python dicts keyed by strings are modelled as association lists
with dict update/delete semantics.  Wall-clock time is an abstract `Nat` tick
count (the sources compare `datetime` values only by order and by adding the
TTL, so only the ordered additive structure matters).  The MD5 digest used for
cache keys is modelled by the identity on the normalized query: the claims
depend only on the key being a deterministic function of the normalized query,
which is also the only property the source relies on (MD5 collisions are
idealized away).
-/

/-- Python strings are modelled as lists of characters. -/
abbrev Str := List Char

/-- Build a `Str` from a Lean string literal. -/
def str (s : String) : Str := s.toList

namespace Py

/-- Python `str.lower` (the repository only exercises the ASCII range, where
Python and `Char.toLower` agree). -/
def lower (s : Str) : Str := s.map Char.toLower

/-- The ASCII whitespace characters recognised by Python `str.split()` and
`str.strip()`. -/
def isSpace (c : Char) : Bool :=
  c == ' ' || c == '\t' || c == '\n' || c == '\r' || c == '\x0b' || c == '\x0c'

/-- Python `str.strip()` — drop whitespace from both ends. -/
def strip (s : Str) : Str :=
  ((s.dropWhile isSpace).reverse.dropWhile isSpace).reverse

/-- Helper for `words`: `acc` is the current word, reversed. -/
def wordsGo (acc : Str) : Str → List Str
  | [] => if acc.isEmpty then [] else [acc.reverse]
  | c :: t =>
    if isSpace c then
      if acc.isEmpty then wordsGo [] t else acc.reverse :: wordsGo [] t
    else wordsGo (c :: acc) t

/-- Python `str.split()` with no separator: whitespace-delimited words, with no
empty words. -/
def words (s : Str) : List Str := wordsGo [] s

/-- `" ".join ws` for a list of words. -/
def joinSp (ws : List Str) : Str := List.intercalate [' '] ws

/-- `' '.join(s.split())` — collapse whitespace runs to single spaces and drop
boundary whitespace (src/cag.py line 136). -/
def collapse (s : Str) : Str := joinSp (words s)

/-- Does `p` begin the string `s`? (used to define substring search and
`replace`). -/
def leadsWith : Str → Str → Bool
  | [], _ => true
  | _ :: _, [] => false
  | a :: p, b :: s => a == b && leadsWith p s

/-- Helper for `replace`: when `skip = k + 1`, the next `k + 1` characters are
the tail of a replaced occurrence and are dropped; when `skip = 0` the scanner
looks for the next occurrence of `old`. -/
def replaceGo (old new : Str) : Nat → Str → Str
  | _, [] => []
  | k + 1, _ :: t => replaceGo old new k t
  | 0, c :: t =>
    if leadsWith old (c :: t) then new ++ replaceGo old new (old.length - 1) t
    else c :: replaceGo old new 0 t

/-- Python `s.replace(old, new)`: replace every non-overlapping occurrence of
`old`, scanning left to right.  (Python special-cases an empty `old`; the
repository never passes one, and here an empty `old` leaves `s` unchanged.) -/
def replace (old new s : Str) : Str :=
  if old.isEmpty then s else replaceGo old new 0 s

/-- Python `p in s` substring test. -/
def subMatch (p : Str) : Str → Bool
  | [] => p.isEmpty
  | c :: t => leadsWith p (c :: t) || subMatch p t

end Py

/-- `p` occurs as a contiguous substring of `s` (the semantic counterpart of the
Python `in` test). -/
def SubOf (p s : Str) : Prop := ∃ l r, s = l ++ p ++ r

namespace CacheModule

/-- The punctuation characters stripped by `_normalize_query`
(src/cag.py line 139). -/
def chars_to_remove : Str := str ".,!?;:"

/-- The area-name alias table of `_normalize_query` (src/cag.py lines 144-151),
in Python dict insertion order. -/
def area_variations : List (Str × Str) :=
  [ (str "t nagar", str "t. nagar")
  , (str "tnagar", str "t. nagar")
  , (str "anna nagar", str "anna nagar")
  , (str "annanagar", str "anna nagar")
  , (str "adyar", str "adyar")
  , (str "velachery", str "velachery") ]

/-- `CacheModule._normalize_query` (src/cag.py lines 128-156): lowercase and
strip, collapse whitespace runs, delete the punctuation set character by
character, then apply the alias table as single-pass substring replacements in
table order. -/
def normalize_query (q : Str) : Str :=
  area_variations.foldl (fun acc p => Py.replace p.1 p.2 acc)
    (chars_to_remove.foldl (fun acc c => Py.replace [c] [] acc)
      (Py.collapse (Py.strip (Py.lower q))))

end CacheModule

/-! ### Python dicts keyed by strings

Association lists with Python dict semantics: update replaces the value in
place (keeping the key's position), insertion of a fresh key appends, deletion
removes the key's entry. -/

/-- Python `m[k]` / `k in m` lookup. -/
def dlookup {α : Type} (m : List (Str × α)) (k : Str) : Option α :=
  match m with
  | [] => none
  | e :: t => if e.1 == k then some e.2 else dlookup t k

/-- Python `m[k] = v`: update in place, or append a fresh key. -/
def dinsert {α : Type} (m : List (Str × α)) (k : Str) (v : α) : List (Str × α) :=
  match m with
  | [] => [(k, v)]
  | e :: t => if e.1 == k then (k, v) :: t else e :: dinsert t k v

/-- Python `del m[k]` (a no-op when the key is absent). -/
def derase {α : Type} (m : List (Str × α)) (k : Str) : List (Str × α) :=
  match m with
  | [] => []
  | e :: t => if e.1 == k then t else e :: derase t k

/-! ### Stable sorting, modelling Python `sorted(key=...)`

Python's `sorted` is stable and ascending in the key; `reverse=True` is
documented to behave as if each comparison were reversed, keeping equal-keyed
elements in their original order — which coincides with a stable ascending
sort on the negated key.  `sortK` inserts each element after every element
whose key is `≤` its own, which is exactly that semantics. -/

/-- Insert `x` into `l` after every element whose key is `≤ k x`. -/
def insKey {α : Type} (k : α → Int) (x : α) : List α → List α
  | [] => [x]
  | y :: t => if k y ≤ k x then y :: insKey k x t else x :: y :: t

/-- Stable ascending sort by an integer key (model of Python `sorted`). -/
def sortK {α : Type} (k : α → Int) (l : List α) : List α :=
  l.foldl (fun acc x => insKey k x acc) []

namespace CacheModule

/-- One cached record (the JSON object written per cache key).  `response = none`
models a persisted record missing its `"response"` field; `timestamp = none`
models a missing or unparsable timestamp (`datetime.fromisoformat` failure).
The `metadata` dict is never read by the repository and is omitted. -/
structure CachedItem where
  query : Str
  response : Option Str
  department : Str
  sources : List Str
  timestamp : Option Nat
deriving DecidableEq, Repr

/-- Contents of one durable cache file: a parsable record, or corrupt JSON. -/
inductive FileData where
  | good (item : CachedItem)
  | corrupt
deriving DecidableEq, Repr

/-- A durable cache file with its modification time. -/
structure PFile where
  content : FileData
  mtime : Nat
deriving DecidableEq, Repr

/-- State of `CacheModule` (src/cag.py lines 20-36): the TTL, the in-memory
dict, the durable per-key records of the cache directory, and the three
counters of `cache_stats`. -/
structure CacheState where
  ttl_hours : Nat
  memory_cache : List (Str × CachedItem)
  durable : List (Str × PFile)
  hits : Nat
  misses : Nat
  total_requests : Nat
deriving DecidableEq, Repr

/-- `CacheModule.__init__` over an empty cache directory (the persistent-load
loop then loads nothing). -/
def initState (ttl : Nat) : CacheState :=
  { ttl_hours := ttl, memory_cache := [], durable := [],
    hits := 0, misses := 0, total_requests := 0 }

/-- `_generate_cache_key` (src/cag.py lines 116-126).  The MD5 hex digest is
modelled by the normalized query itself: the claims (and the source) rely only
on the key being a deterministic function of the normalized query. -/
def generate_cache_key (q : Str) : Str :=
  str "civic_query_" ++ normalize_query q

/-- `_is_cache_valid` (src/cag.py lines 158-170): `now < timestamp + ttl`;
a missing or unparsable timestamp yields `False`. -/
def is_cache_valid (item : CachedItem) (now ttl : Nat) : Bool :=
  match item.timestamp with
  | none => false
  | some ts => decide (now < ts + ttl)

/-- The durable-storage half of `get_cached_response` (src/cag.py lines 58-80),
reached when the memory dict has no valid entry for `key`.  `readOk = false`
models an OS error raised by `open`, which the outer handler converts to a
miss without deleting the file. -/
def persistentLookup (st : CacheState) (key : Str) (now : Nat) (readOk : Bool) :
    Option Str × CacheState :=
  match dlookup st.durable key with
  | none => (none, { st with misses := st.misses + 1 })
  | some f =>
    if !readOk then
      (none, { st with misses := st.misses + 1 })
    else
      match f.content with
      | FileData.corrupt =>
        -- json.JSONDecodeError: unlink the file, fall through to the miss count
        (none, { st with durable := derase st.durable key, misses := st.misses + 1 })
      | FileData.good item =>
        if is_cache_valid item now st.ttl_hours then
          match item.response with
          | some r =>
            (some r, { st with hits := st.hits + 1,
                               memory_cache := dinsert st.memory_cache key item })
          | none =>
            -- hits was incremented and the item promoted to memory before
            -- `cached_item["response"]` raised KeyError; the inner handler
            -- unlinks the file and control falls through to the miss count
            -- (src/cag.py lines 65-79)
            (none, { st with hits := st.hits + 1, misses := st.misses + 1,
                             memory_cache := dinsert st.memory_cache key item,
                             durable := derase st.durable key })
        else
          (none, { st with durable := derase st.durable key,
                           misses := st.misses + 1 })

/-- `get_cached_response` (src/cag.py lines 38-85).  Returns the value the
Python function returns — `cached_item["response"]`, a plain string — plus the
updated state. -/
def get_cached_response (st : CacheState) (q : Str) (now : Nat) (readOk : Bool) :
    Option Str × CacheState :=
  let st := { st with total_requests := st.total_requests + 1 }
  let key := generate_cache_key q
  match dlookup st.memory_cache key with
  | some item =>
    if is_cache_valid item now st.ttl_hours then
      match item.response with
      | some r => (some r, { st with hits := st.hits + 1 })
      | none =>
        -- hits was incremented, then `cached_item["response"]` raised KeyError,
        -- caught by the outer handler which adds a miss (src/cag.py lines 50-53, 82-85)
        (none, { st with hits := st.hits + 1, misses := st.misses + 1 })
    else
      persistentLookup { st with memory_cache := derase st.memory_cache key } key now readOk
  | none => persistentLookup st key now readOk

/-- `cache_response` (src/cag.py lines 87-114) with `_store_persistent_cache`
(lines 172-183) inlined: write the item to the memory dict, then best-effort
write the durable record.  `writeOk = false` models an I/O error in the durable
write, which is caught and logged (the memory entry stays). -/
def cache_response (st : CacheState) (q r d : Str) (srcs : List Str) (now : Nat)
    (writeOk : Bool) : CacheState :=
  let key := generate_cache_key q
  let item : CachedItem :=
    { query := q, response := some r, department := d, sources := srcs,
      timestamp := some now }
  let st := { st with memory_cache := dinsert st.memory_cache key item }
  if writeOk then
    { st with durable := dinsert st.durable key ⟨FileData.good item, now⟩ }
  else st

/-- The string-compare key Python uses to sort memory items:
`item.get("timestamp", "")`, with the empty string sorting below every
ISO timestamp.  Mapped to `Int` with `none ↦ -1`. -/
def tsNum (o : Option Nat) : Int :=
  match o with
  | none => -1
  | some t => (t : Int)

/-- Sort key for the memory half of `optimize_cache` (descending timestamp,
modelled as ascending negated timestamp). -/
def memKey (e : Str × CachedItem) : Int := -(tsNum e.2.timestamp)

/-- Sort key for the durable half of `optimize_cache` (ascending mtime). -/
def durKey (e : Str × PFile) : Int := (e.2.mtime : Int)

/-- `optimize_cache` (src/cag.py lines 373-411): if the memory dict holds more
than 1000 items, keep the 1000 most recent by timestamp (stable descending
sort, then truncate); if the cache directory holds more than 5000 files,
delete the oldest by mtime down to 5000 (`cache_files[:-5000]` are removed;
per-file unlink OS errors are ignored in the source and modelled as
successful deletes). -/
def optimize_cache (st : CacheState) : CacheState :=
  let max_memory_items := 1000
  let max_persistent_files := 5000
  let mem :=
    if st.memory_cache.length > max_memory_items then
      (sortK memKey st.memory_cache).take max_memory_items
    else st.memory_cache
  let dur :=
    if st.durable.length > max_persistent_files then
      (sortK durKey st.durable).drop (st.durable.length - max_persistent_files)
    else st.durable
  { st with memory_cache := mem, durable := dur }

/-- Python `round(x, 2)` idealized over exact rationals (the source computes
the hit rate in binary floating point and rounds half-to-even; over the exact
rationals of this model we round half away from zero — the two agree except on
exact half-cent ties, which binary floats cannot represent exactly anyway). -/
def round2 (x : Rat) : Rat := ((round (x * 100) : Int) : Rat) / 100

/-- The fields of `get_cache_stats` (src/cag.py lines 275-290) that the claims
mention (`cache_directory_size_mb` is omitted). -/
structure StatsReport where
  total_requests : Nat
  cache_hits : Nat
  cache_misses : Nat
  hit_rate_percentage : Rat
  memory_cache_size : Nat
  persistent_cache_files : Nat
deriving DecidableEq, Repr

/-- `get_cache_stats` (src/cag.py lines 275-290). -/
def get_cache_stats (st : CacheState) : StatsReport :=
  let hit_rate : Rat :=
    if st.total_requests > 0 then (st.hits : Rat) / (st.total_requests : Rat) * 100 else 0
  { total_requests := st.total_requests
    cache_hits := st.hits
    cache_misses := st.misses
    hit_rate_percentage := round2 hit_rate
    memory_cache_size := st.memory_cache.length
    persistent_cache_files := st.durable.length }

end CacheModule

namespace Py

/-- Helper for `title`: `prevAlpha` records whether the previous character was
cased. -/
def titleGo (prevAlpha : Bool) : Str → Str
  | [] => []
  | c :: t =>
    (if c.isAlpha then (if prevAlpha then Char.toLower c else Char.toUpper c) else c)
      :: titleGo c.isAlpha t

/-- Python `str.title()` (ASCII range): uppercase every letter that follows a
non-letter, lowercase the rest. -/
def title (s : Str) : Str := titleGo false s

end Py

namespace CivicMindAI

/-- The result of `identify_area_from_query` (src/app.py lines 293-335): a
dict whose keys vary by branch, modelled with optional fields. -/
structure AreaInfo where
  type : Str
  name : Str
  zone_number : Option Str := none
  wards : List Nat := []
  ward_names : List Str := []
  pincode : Option Str := none
deriving DecidableEq, Repr

/-- Per-zone data from the civic-data document (`wards` / `ward_names`,
read with `.get(_, [])`). -/
structure ZoneData where
  wards : List Nat := []
  ward_names : List Str := []
deriving DecidableEq, Repr

/-- `zone_name.replace("_", " ").replace("Zone ", "")` (src/app.py line 299). -/
def zone_display (zn : Str) : Str :=
  Py.replace (str "Zone ") [] (Py.replace (str "_") (str " ") zn)

/-- The fixed well-known area list (src/app.py lines 319-323). -/
def common_areas : List Str :=
  [ str "adyar", str "t nagar", str "anna nagar", str "velachery", str "mylapore"
  , str "kodambakkam", str "nungambakkam", str "guindy", str "chrompet", str "tambaram"
  , str "perambur", str "royapuram", str "egmore", str "kilpauk", str "saidapet" ]

/-- `identify_area_from_query` (src/app.py lines 293-335), parameterized by the
zone table of the civic-data document and the pincode mapping (both external
JSON inputs; the fallback pincode table shipped in the source is
`fallback_pincode_mapping` below, and the fallback civic data has no zone
table). -/
def identify_area_from_query (zones : List (Str × ZoneData))
    (pincode_mapping : List (Str × Str)) (q : Str) : AreaInfo :=
  let ql := Py.lower q
  match zones.find? (fun z => Py.subMatch (Py.lower (zone_display z.1)) ql) with
  | some (zn, zd) =>
    { type := str "zone", name := zone_display zn, zone_number := some zn,
      wards := zd.wards, ward_names := zd.ward_names }
  | none =>
  match pincode_mapping.find? (fun e => Py.subMatch e.1 q || Py.subMatch (Py.lower e.2) ql) with
  | some (pc, area) =>
    { type := str "pincode_area", name := area, pincode := some pc }
  | none =>
  match common_areas.find? (fun a => Py.subMatch a ql) with
  | some a => { type := str "area", name := Py.title a }
  | none => { type := str "general", name := str "Chennai" }

/-- The fixed ordered issue-keyword table (src/app.py lines 341-347), in Python
dict insertion order. -/
def issue_keywords : List (Str × List Str) :=
  [ (str "water_supply",
      [str "water", str "supply", str "shortage", str "leak", str "pipe",
       str "connection", str "pressure"])
  , (str "electricity",
      [str "power", str "electricity", str "outage", str "billing", str "meter",
       str "connection"])
  , (str "garbage_collection",
      [str "garbage", str "waste", str "collection", str "bin", str "sweeping",
       str "cleaning"])
  , (str "roads",
      [str "road", str "pothole", str "street", str "repair", str "maintenance"])
  , (str "transport",
      [str "bus", str "transport", str "route", str "fare", str "conductor",
       str "driver"]) ]

/-- `identify_issue_type` (src/app.py lines 337-353): first category, in table
order, with a keyword occurring in the lowercased query; otherwise
`"general"`. -/
def identify_issue_type (q : Str) : Str :=
  let ql := Py.lower q
  match issue_keywords.find? (fun p => p.2.any (fun kw => Py.subMatch kw ql)) with
  | some p => p.1
  | none => str "general"

/-- One department record of the civic-data document (fields read with
`.get(_, default)`). -/
structure DeptRec where
  main_contact : Option Str := none
  services : Option (List Str) := none
deriving DecidableEq, Repr

/-- The department/contact/services/sources bundle assembled by the retriever
(the dict returned by `get_fallback_civic_info` / `retrieve_information`). -/
structure CivicInfo where
  department : Str
  contact : Str
  services : List Str
  sources : List Str
deriving DecidableEq, Repr

/-- The `departments_complete` table of the embedded fallback civic data
(src/app.py lines 87-104). -/
def fallback_departments : List (Str × DeptRec) :=
  [ (str "Greater_Chennai_Corporation",
      { main_contact := some (str "1913"),
        services := some [str "Garbage collection", str "Road maintenance",
                          str "Building approvals"] })
  , (str "Chennai_Metro_Water",
      { main_contact := some (str "044-4567-4567"),
        services := some [str "Water supply", str "Sewerage", str "New connections"] })
  , (str "TANGEDCO",
      { main_contact := some (str "94987-94987"),
        services := some [str "Electricity supply", str "Power failures", str "Billing"] })
  , (str "TNSTC",
      { main_contact := some (str "1800-599-1500"),
        services := some [str "Bus transport", str "Route complaints"] }) ]

/-- The embedded fallback pincode mapping (src/app.py lines 107-115), in dict
insertion order. -/
def fallback_pincode_mapping : List (Str × Str) :=
  [ (str "600001", str "Parrys Corner")
  , (str "600004", str "Mylapore")
  , (str "600020", str "Adyar")
  , (str "600017", str "T. Nagar")
  , (str "600040", str "Anna Nagar") ]

/-- `get_fallback_civic_info` (src/app.py lines 366-408): the fixed
issue-category → department bundle, with per-field defaults for missing
department records.  Note the source sends `"roads"` to the final generic
branch. -/
def get_fallback_civic_info (departments : List (Str × DeptRec)) (issue_type : Str) :
    CivicInfo :=
  if issue_type == str "water_supply" then
    let d := (dlookup departments (str "Chennai_Metro_Water")).getD {}
    { department := str "Chennai Metro Water",
      contact := d.main_contact.getD (str "044-4567-4567"),
      services := d.services.getD [],
      sources := [str "Chennai Metro Water Official Data"] }
  else if issue_type == str "electricity" then
    let d := (dlookup departments (str "TANGEDCO")).getD {}
    { department := str "TANGEDCO",
      contact := d.main_contact.getD (str "94987-94987"),
      services := d.services.getD [],
      sources := [str "TANGEDCO Official Data"] }
  else if issue_type == str "garbage_collection" then
    let d := (dlookup departments (str "Greater_Chennai_Corporation")).getD {}
    { department := str "Greater Chennai Corporation",
      contact := d.main_contact.getD (str "1913"),
      services := d.services.getD [],
      sources := [str "GCC Official Data"] }
  else if issue_type == str "transport" then
    let d := (dlookup departments (str "TNSTC")).getD {}
    { department := str "TNSTC",
      contact := d.main_contact.getD (str "1800-599-1500"),
      services := d.services.getD [],
      sources := [str "TNSTC Official Data"] }
  else
    { department := str "Greater Chennai Corporation",
      contact := str "1913",
      services := [str "General civic services"],
      sources := [str "General civic information"] }

/-- `generate_fallback_response` (src/app.py lines 462-481): the deterministic
template (its `query` parameter is unused in the source body).  `area_name`
is `area_info.get("name", "your area")`, supplied by the caller. -/
def generate_fallback_response (issue_type area_name : Str) (civic : CivicInfo) : Str :=
  str "\n        For " ++ Py.replace (str "_") (str " ") issue_type
    ++ str " issues in " ++ area_name
    ++ str ", please contact " ++ civic.department ++ str " at " ++ civic.contact
    ++ str ".\n        \n        **Immediate Steps:**\n        1. Call " ++ civic.contact
    ++ str " to register your complaint\n        2. Note down the complaint number for tracking\n        3. Provide exact address and description of issue\n        \n        **Expected Response Time:** 24-48 hours for most issues\n        \n        **Escalation:** If no response within expected time, contact the zone office or visit the department in person.\n        \n        For emergency issues, call immediately. Non-emergency issues can also be reported through official mobile apps or online portals.\n        "

/-- External collaborators and configuration of one `process_civic_query` run.
`rag = some info` models a successful `RAGModule.retrieve_information` call;
`rag = none` models an absent module or a raised exception (the bare handler
at src/app.py lines 360-361 then falls back).  `ai = none` models no API key;
`ai = some (.ok t)` a generative call returning text `t`; `ai = some (.error _)`
a raised generative call (caught inside `generate_ai_response`).  `fl = .error`
models `fl_manager.record_interaction` raising (not wrapped by any inner
handler). -/
structure PipelineEnv where
  zones : List (Str × ZoneData)
  departments : List (Str × DeptRec)
  pincode_mapping : List (Str × Str)
  rag : Option CivicInfo
  ai : Option (Except Unit Str)
  fl : Except Unit Unit
  readOk : Bool
  writeOk : Bool

/-- The dict returned by `process_civic_query`, with branch-dependent keys
modelled as optional fields (`area`/`issue_type` only on the computed path,
`error` only on the exception path). -/
structure PipelineResult where
  response : Str
  sources : List Str
  processing_time : Nat
  cache_hit : Bool
  department : Str
  area : Option Str := none
  issue_type : Option Str := none
  error : Option Str := none
deriving DecidableEq, Repr

/-- The fixed apologetic message of the exception handler
(src/app.py line 285). -/
def error_message : Str :=
  str "I apologize, but I encountered an error processing your query. Please try again or contact support."

/-- The result built by the exception handler (src/app.py lines 282-291). -/
def errorResult (elapsed : Nat) (e : Str) : PipelineResult :=
  { response := error_message, sources := [], processing_time := elapsed,
    cache_hit := false, department := str "System", error := some e }

/-- The cache-miss path of `process_civic_query` (steps 2-7, src/app.py lines
246-280).  The knowledge-graph step (line 254) feeds only the generative
prompt, which is behind the `ai` oracle.  The session-state bookkeeping of
line 270 has no effect on the returned dict and is omitted. -/
def missPath (env : PipelineEnv) (st : CacheModule.CacheState) (q : Str) (tStart tNow : Nat) :
    PipelineResult × CacheModule.CacheState :=
  let area := identify_area_from_query env.zones env.pincode_mapping q
  let issue := identify_issue_type q
  let civic :=
    match env.rag with
    | some info => info
    | none => get_fallback_civic_info env.departments issue
  let response : Str :=
    match env.ai with
    | none => generate_fallback_response issue area.name civic
    | some (Except.ok t) => Py.strip t
    | some (Except.error _) =>
      -- generate_ai_response's handler calls
      -- generate_fallback_response(query, {}, "", civic_info): the empty area
      -- dict defaults to "your area" and the issue type is "" (src/app.py line 460)
      generate_fallback_response [] (str "your area") civic
  let st2 := CacheModule.cache_response st q response civic.department [] tNow env.writeOk
  match env.fl with
  | Except.error _ => (errorResult (tNow - tStart) (str "record_interaction raised"), st2)
  | Except.ok _ =>
    ({ response := response, sources := civic.sources, processing_time := tNow - tStart,
       cache_hit := false, department := civic.department, area := some area.name,
       issue_type := some issue }, st2)

/-- `process_civic_query` (src/app.py lines 230-291) in the deployed
configuration, where `self.cache_module` is a `CacheModule` instance, so
`check_cache` (lines 483-492) returns `get_cached_response`'s value: the
cached response *string*.  `tStart` is `start_time`; `tNow` is the clock when
the result is produced. -/
def process_civic_query (env : PipelineEnv) (st : CacheModule.CacheState) (q model : Str)
    (tStart tNow : Nat) : PipelineResult × CacheModule.CacheState :=
  let p := CacheModule.get_cached_response st q tNow env.readOk
  match p.1 with
  | some c =>
    if !c.isEmpty then
      -- `if cached_response:` is true, and the hit branch then evaluates
      -- `cached_response["response"]` — subscripting a str with a str raises
      -- TypeError (src/app.py line 239), caught by the handler at line 282
      (errorResult (tNow - tStart) (str "TypeError: string indices must be integers"), p.2)
    else
      -- an empty cached string is falsy in Python, so the pipeline proceeds as a miss
      missPath env p.2 q tStart tNow
  | none => missPath env p.2 q tStart tNow

/-- A zone entry matches the query when its display name occurs,
case-insensitively, as a substring of the query (src/app.py line 300). -/
def zoneMatches (q : Str) (z : Str × ZoneData) : Prop :=
  SubOf (Py.lower (zone_display z.1)) (Py.lower q)

/-- A pincode entry matches when the pincode digit-string occurs verbatim in
the raw query, or its mapped area name occurs in the lowercased query
(src/app.py line 311). -/
def pincodeMatches (q : Str) (e : Str × Str) : Prop :=
  SubOf e.1 q ∨ SubOf (Py.lower e.2) (Py.lower q)

/-- A well-known area name matches when it occurs in the lowercased query
(src/app.py line 326). -/
def areaMatches (q : Str) (a : Str) : Prop :=
  SubOf a (Py.lower q)

end CivicMindAI

namespace CacheModule

/-- One external cache operation: a `get_cached_response` call (with its
clock reading and read outcome) or a `cache_response` call (with its clock
reading and durable-write outcome). -/
inductive CacheOp where
  | look (q : Str) (now : Nat) (readOk : Bool)
  | put (q r d : Str) (srcs : List Str) (now : Nat) (writeOk : Bool)

/-- Apply one cache operation to the state (the value returned by a lookup is
dropped; only the state evolution matters for the stats invariant). -/
def applyOp (st : CacheState) : CacheOp → CacheState
  | CacheOp.look q now readOk => (get_cached_response st q now readOk).2
  | CacheOp.put q r d srcs now writeOk => cache_response st q r d srcs now writeOk

/-- Run a sequence of cache operations. -/
def runOps (st : CacheState) (ops : List CacheOp) : CacheState :=
  ops.foldl applyOp st

/-- Every record reachable by a lookup carries its `"response"` field: true of
every record the module itself writes, and violated only by externally
malformed durable records. -/
def GoodState (st : CacheState) : Prop :=
  (∀ e ∈ st.memory_cache, e.2.response ≠ none) ∧
  (∀ e ∈ st.durable, ∀ i, e.2.content = FileData.good i → i.response ≠ none)

/-- The stats counters balance: every request so far was counted as exactly
one hit or one miss. -/
def statsBalanced (st : CacheState) : Prop :=
  st.hits + st.misses = st.total_requests

/-- Keys of an association list are distinct — the invariant of a Python dict
and of a directory of per-key files. -/
def KeysNodup {α : Type} (m : List (Str × α)) : Prop :=
  (m.map Prod.fst).Nodup

/-- Well-formed cache state: the memory dict and the cache directory each have
distinct keys. -/
def WFState (st : CacheState) : Prop :=
  KeysNodup st.memory_cache ∧ KeysNodup st.durable

end CacheModule

/-- The environment the source ships by default: fallback civic data (whose
zone table is absent), the embedded fallback pincode mapping, retriever
degradation to the static table, no API key (deterministic composer), a
working feedback recorder, and working durable storage. -/
def demoEnv : CivicMindAI.PipelineEnv :=
  { zones := [], departments := CivicMindAI.fallback_departments,
    pincode_mapping := CivicMindAI.fallback_pincode_mapping,
    rag := none, ai := none, fl := Except.ok (), readOk := true, writeOk := true }

/-! ## Basic lemmas about the Python string primitives -/

theorem leadsWith_iff (p : Str) : ∀ s : Str, Py.leadsWith p s = true ↔ ∃ r, s = p ++ r := by
  induction p with
  | nil => intro s; simp [Py.leadsWith]
  | cons a p ih =>
    intro s
    cases s with
    | nil => simp [Py.leadsWith]
    | cons b t =>
      simp only [Py.leadsWith, Bool.and_eq_true, beq_iff_eq, ih t, List.cons_append,
        List.cons.injEq]
      constructor
      · rintro ⟨rfl, r, rfl⟩; exact ⟨r, rfl, rfl⟩
      · rintro ⟨r, rfl, rfl⟩; exact ⟨rfl, r, rfl⟩

theorem subOf_nil (p : Str) : SubOf p [] ↔ p = [] := by
  constructor
  · rintro ⟨l, r, h⟩
    rcases List.append_eq_nil.mp h.symm with ⟨h1, h2⟩
    exact (List.append_eq_nil.mp h1).2
  · rintro rfl; exact ⟨[], [], rfl⟩

theorem subOf_cons (p : Str) (c : Char) (t : Str) :
    SubOf p (c :: t) ↔ (∃ r, c :: t = p ++ r) ∨ SubOf p t := by
  constructor
  · rintro ⟨l, r, h⟩
    cases l with
    | nil => exact Or.inl ⟨r, by simpa using h⟩
    | cons x l =>
      simp only [List.cons_append, List.cons.injEq] at h
      exact Or.inr ⟨l, r, h.2⟩
  · rintro (⟨r, h⟩ | ⟨l, r, h⟩)
    · exact ⟨[], r, by simpa using h⟩
    · exact ⟨c :: l, r, by simp [h]⟩

theorem subOf_cons_of (p : Str) (c : Char) (t : Str) (h : SubOf p t) : SubOf p (c :: t) :=
  (subOf_cons p c t).mpr (Or.inr h)

theorem subMatch_iff (p : Str) : ∀ s : Str, Py.subMatch p s = true ↔ SubOf p s := by
  intro s
  induction s with
  | nil => simp [Py.subMatch, subOf_nil, List.isEmpty_iff]
  | cons c t ih =>
    simp only [Py.subMatch, Bool.or_eq_true, leadsWith_iff, ih, subOf_cons]

theorem mem_of_subOf {p s : Str} (h : SubOf p s) : ∀ c ∈ p, c ∈ s := by
  rcases h with ⟨l, r, rfl⟩
  intro c hc
  simp [hc]

/-- Decomposition of `List.find?`: either some element is found, preceded by
only failing elements, or every element fails. -/
theorem find?_split {α : Type} (p : α → Bool) (l : List α) :
    (∃ l1 a l2, l = l1 ++ a :: l2 ∧ p a = true ∧ (∀ b ∈ l1, p b = false) ∧
      l.find? p = some a) ∨
    (l.find? p = none ∧ ∀ a ∈ l, p a = false) := by
  induction l with
  | nil => exact Or.inr ⟨rfl, by simp⟩
  | cons x t ih =>
    by_cases hx : p x = true
    · exact Or.inl ⟨[], x, t, by simp, hx, by simp, by simp [List.find?_cons_of_pos _ hx]⟩
    · have hx' : p x = false := by simpa using hx
      rcases ih with ⟨l1, a, l2, rfl, ha, hl1, hf⟩ | ⟨hf, hall⟩
      · refine Or.inl ⟨x :: l1, a, l2, rfl, ha, ?_, ?_⟩
        · intro b hb
          rcases List.mem_cons.mp hb with rfl | hb
          · exact hx'
          · exact hl1 b hb
        · rw [List.find?_cons_of_neg _ hx]; exact hf
      · refine Or.inr ⟨?_, ?_⟩
        · rw [List.find?_cons_of_neg _ hx]; exact hf
        · intro a ha
          rcases List.mem_cons.mp ha with rfl | ha
          · exact hx'
          · exact hall a ha

theorem toLower_of_space {c : Char} (h : Py.isSpace c = true) : Char.toLower c = c := by
  simp only [Py.isSpace, Bool.or_eq_true, beq_iff_eq] at h
  rcases h with ((((rfl | rfl) | rfl) | rfl) | rfl) | rfl <;> decide

/-! ## C7 — issue classification -/

/-- C7: issue classification returns exactly one category: the first category
of the fixed ordered keyword table with any keyword occurring as a substring
of the lowercased query, and `"general"` when no keyword matches — in
particular for every whitespace-only (or empty) query. -/
theorem identify_issue_type_first_match (q : Str) :
    ((∃ l1 cat kws l2,
        CivicMindAI.issue_keywords = l1 ++ (cat, kws) :: l2 ∧
        CivicMindAI.identify_issue_type q = cat ∧
        (∃ kw ∈ kws, SubOf kw (Py.lower q)) ∧
        (∀ p ∈ l1, ∀ kw ∈ p.2, ¬ SubOf kw (Py.lower q))) ∨
      (CivicMindAI.identify_issue_type q = str "general" ∧
        ∀ p ∈ CivicMindAI.issue_keywords, ∀ kw ∈ p.2, ¬ SubOf kw (Py.lower q))) ∧
    ((∀ c ∈ q, Py.isSpace c = true) →
      CivicMindAI.identify_issue_type q = str "general") := by
  have hchar :
      (∃ l1 cat kws l2,
        CivicMindAI.issue_keywords = l1 ++ (cat, kws) :: l2 ∧
        CivicMindAI.identify_issue_type q = cat ∧
        (∃ kw ∈ kws, SubOf kw (Py.lower q)) ∧
        (∀ p ∈ l1, ∀ kw ∈ p.2, ¬ SubOf kw (Py.lower q))) ∨
      (CivicMindAI.identify_issue_type q = str "general" ∧
        ∀ p ∈ CivicMindAI.issue_keywords, ∀ kw ∈ p.2, ¬ SubOf kw (Py.lower q)) := by
    rcases find?_split (fun p => p.2.any (fun kw => Py.subMatch kw (Py.lower q)))
        CivicMindAI.issue_keywords with
      ⟨l1, a, l2, hsplit, ha, hl1, hf⟩ | ⟨hf, hall⟩
    · left
      refine ⟨l1, a.1, a.2, l2, by simpa using hsplit, ?_, ?_, ?_⟩
      · simp [CivicMindAI.identify_issue_type, hf]
      · rcases List.any_eq_true.mp ha with ⟨kw, hkw, hm⟩
        exact ⟨kw, hkw, (subMatch_iff kw _).mp hm⟩
      · intro p hp kw hkw hsub
        have : p.2.any (fun kw => Py.subMatch kw (Py.lower q)) = true :=
          List.any_eq_true.mpr ⟨kw, hkw, (subMatch_iff kw _).mpr hsub⟩
        rw [hl1 p hp] at this
        exact Bool.false_ne_true this
    · right
      refine ⟨by simp [CivicMindAI.identify_issue_type, hf], ?_⟩
      intro p hp kw hkw hsub
      have : p.2.any (fun kw => Py.subMatch kw (Py.lower q)) = true :=
        List.any_eq_true.mpr ⟨kw, hkw, (subMatch_iff kw _).mpr hsub⟩
      rw [hall p hp] at this
      exact Bool.false_ne_true this
  refine ⟨hchar, ?_⟩
  intro hws
  have hlq : ∀ c ∈ Py.lower q, Py.isSpace c = true := by
    intro c hc
    rcases List.mem_map.mp hc with ⟨d, hd, rfl⟩
    rw [toLower_of_space (hws d hd)]
    exact hws d hd
  have hkwchar : ∀ p ∈ CivicMindAI.issue_keywords, ∀ kw ∈ p.2,
      kw.any (fun c => !Py.isSpace c) = true := by decide
  rcases hchar with ⟨l1, cat, kws, l2, hsplit, _, ⟨kw, hkw, hsub⟩, _⟩ | ⟨hgen, _⟩
  · exfalso
    have hmem : (cat, kws) ∈ CivicMindAI.issue_keywords := by
      rw [hsplit]; simp
    rcases List.any_eq_true.mp (hkwchar (cat, kws) hmem kw hkw) with ⟨c, hc, hns⟩
    have : Py.isSpace c = true := hlq c (mem_of_subOf hsub c hc)
    simp [this] at hns
  · exact hgen

/-- Witness for C7 at the whitespace-only query `"   "`, discharging the
hypothesis of the whitespace clause. -/
theorem identify_issue_type_first_match_witness :
    CivicMindAI.identify_issue_type (str "   ") = str "general" :=
  (identify_issue_type_first_match (str "   ")).2 (by decide)

/-! ## C6 — area classification order -/

/-- C6: area classification resolves first-match-wins, case-insensitively:
a zone display-name substring match wins over everything, then a pincode
(verbatim digits or mapped area name), then the fixed well-known-area list,
and otherwise the `general`/`"Chennai"` default; in particular any query with
a matching zone yields kind `"zone"` with that zone's display name even when a
pincode or named area also matches. -/
theorem identify_area_first_match_order (zones : List (Str × CivicMindAI.ZoneData))
    (pmap : List (Str × Str)) (q : Str) :
    ((∃ z ∈ zones, CivicMindAI.zoneMatches q z) →
      (CivicMindAI.identify_area_from_query zones pmap q).type = str "zone" ∧
      ∃ l1 z l2, zones = l1 ++ z :: l2 ∧ CivicMindAI.zoneMatches q z ∧
        (∀ z' ∈ l1, ¬ CivicMindAI.zoneMatches q z') ∧
        (CivicMindAI.identify_area_from_query zones pmap q).name
          = CivicMindAI.zone_display z.1 ∧
        (CivicMindAI.identify_area_from_query zones pmap q).zone_number = some z.1) ∧
    ((∀ z ∈ zones, ¬ CivicMindAI.zoneMatches q z) →
      (∃ e ∈ pmap, CivicMindAI.pincodeMatches q e) →
      (CivicMindAI.identify_area_from_query zones pmap q).type = str "pincode_area" ∧
      ∃ l1 e l2, pmap = l1 ++ e :: l2 ∧ CivicMindAI.pincodeMatches q e ∧
        (∀ e' ∈ l1, ¬ CivicMindAI.pincodeMatches q e') ∧
        (CivicMindAI.identify_area_from_query zones pmap q).name = e.2 ∧
        (CivicMindAI.identify_area_from_query zones pmap q).pincode = some e.1) ∧
    ((∀ z ∈ zones, ¬ CivicMindAI.zoneMatches q z) →
      (∀ e ∈ pmap, ¬ CivicMindAI.pincodeMatches q e) →
      (∃ a ∈ CivicMindAI.common_areas, CivicMindAI.areaMatches q a) →
      (CivicMindAI.identify_area_from_query zones pmap q).type = str "area" ∧
      ∃ l1 a l2, CivicMindAI.common_areas = l1 ++ a :: l2 ∧ CivicMindAI.areaMatches q a ∧
        (∀ a' ∈ l1, ¬ CivicMindAI.areaMatches q a') ∧
        (CivicMindAI.identify_area_from_query zones pmap q).name = Py.title a) ∧
    ((∀ z ∈ zones, ¬ CivicMindAI.zoneMatches q z) →
      (∀ e ∈ pmap, ¬ CivicMindAI.pincodeMatches q e) →
      (∀ a ∈ CivicMindAI.common_areas, ¬ CivicMindAI.areaMatches q a) →
      (CivicMindAI.identify_area_from_query zones pmap q).type = str "general" ∧
      (CivicMindAI.identify_area_from_query zones pmap q).name = str "Chennai") := by
  have zbr : ∀ z : Str × CivicMindAI.ZoneData,
      Py.subMatch (Py.lower (CivicMindAI.zone_display z.1)) (Py.lower q) = true
        ↔ CivicMindAI.zoneMatches q z :=
    fun z => subMatch_iff _ _
  have pbr : ∀ e : Str × Str,
      (Py.subMatch e.1 q || Py.subMatch (Py.lower e.2) (Py.lower q)) = true
        ↔ CivicMindAI.pincodeMatches q e := by
    intro e
    simp only [Bool.or_eq_true, subMatch_iff]
    exact Iff.rfl
  have abr : ∀ a : Str, Py.subMatch a (Py.lower q) = true ↔ CivicMindAI.areaMatches q a :=
    fun a => subMatch_iff _ _
  refine ⟨?_, ?_, ?_, ?_⟩
  · rintro ⟨z0, hz0, hm0⟩
    rcases find?_split (fun z => Py.subMatch (Py.lower (CivicMindAI.zone_display z.1))
        (Py.lower q)) zones with ⟨l1, z, l2, hsplit, hz, hl1, hf⟩ | ⟨_, hall⟩
    · refine ⟨by simp [CivicMindAI.identify_area_from_query, hf],
        l1, z, l2, hsplit, (zbr z).mp hz, ?_,
        by simp [CivicMindAI.identify_area_from_query, hf],
        by simp [CivicMindAI.identify_area_from_query, hf]⟩
      intro z' hz' hm'
      have := (zbr z').mpr hm'
      rw [hl1 z' hz'] at this
      exact Bool.false_ne_true this
    · have := (zbr z0).mpr hm0
      rw [hall z0 hz0] at this
      exact absurd this Bool.false_ne_true
  · intro hnoz
    rintro ⟨e0, he0, hm0⟩
    have hzf : zones.find? (fun z => Py.subMatch (Py.lower (CivicMindAI.zone_display z.1))
        (Py.lower q)) = none := by
      rw [List.find?_eq_none]
      intro z hz hb
      exact hnoz z hz ((zbr z).mp hb)
    rcases find?_split (fun e => Py.subMatch e.1 q || Py.subMatch (Py.lower e.2) (Py.lower q))
        pmap with ⟨l1, e, l2, hsplit, he, hl1, hf⟩ | ⟨_, hall⟩
    · refine ⟨by simp [CivicMindAI.identify_area_from_query, hzf, hf],
        l1, e, l2, hsplit, (pbr e).mp he, ?_,
        by simp [CivicMindAI.identify_area_from_query, hzf, hf],
        by simp [CivicMindAI.identify_area_from_query, hzf, hf]⟩
      intro e' he' hm'
      have := (pbr e').mpr hm'
      rw [hl1 e' he'] at this
      exact Bool.false_ne_true this
    · have := (pbr e0).mpr hm0
      rw [hall e0 he0] at this
      exact absurd this Bool.false_ne_true
  · intro hnoz hnop
    rintro ⟨a0, ha0, hm0⟩
    have hzf : zones.find? (fun z => Py.subMatch (Py.lower (CivicMindAI.zone_display z.1))
        (Py.lower q)) = none := by
      rw [List.find?_eq_none]
      intro z hz hb
      exact hnoz z hz ((zbr z).mp hb)
    have hpf : pmap.find? (fun e => Py.subMatch e.1 q || Py.subMatch (Py.lower e.2)
        (Py.lower q)) = none := by
      rw [List.find?_eq_none]
      intro e he hb
      exact hnop e he ((pbr e).mp hb)
    rcases find?_split (fun a => Py.subMatch a (Py.lower q)) CivicMindAI.common_areas with
      ⟨l1, a, l2, hsplit, ha, hl1, hf⟩ | ⟨_, hall⟩
    · refine ⟨by simp [CivicMindAI.identify_area_from_query, hzf, hpf, hf],
        l1, a, l2, hsplit, (abr a).mp ha, ?_,
        by simp [CivicMindAI.identify_area_from_query, hzf, hpf, hf]⟩
      intro a' ha' hm'
      have := (abr a').mpr hm'
      rw [hl1 a' ha'] at this
      exact Bool.false_ne_true this
    · have := (abr a0).mpr hm0
      rw [hall a0 ha0] at this
      exact absurd this Bool.false_ne_true
  · intro hnoz hnop hnoa
    have hzf : zones.find? (fun z => Py.subMatch (Py.lower (CivicMindAI.zone_display z.1))
        (Py.lower q)) = none := by
      rw [List.find?_eq_none]
      intro z hz hb
      exact hnoz z hz ((zbr z).mp hb)
    have hpf : pmap.find? (fun e => Py.subMatch e.1 q || Py.subMatch (Py.lower e.2)
        (Py.lower q)) = none := by
      rw [List.find?_eq_none]
      intro e he hb
      exact hnop e he ((pbr e).mp hb)
    have haf : CivicMindAI.common_areas.find? (fun a => Py.subMatch a (Py.lower q)) = none := by
      rw [List.find?_eq_none]
      intro a ha hb
      exact hnoa a ha ((abr a).mp hb)
    exact ⟨by simp [CivicMindAI.identify_area_from_query, hzf, hpf, haf],
      by simp [CivicMindAI.identify_area_from_query, hzf, hpf, haf]⟩

/-- Witness for C6: a query containing a zone display name, a mapped pincode
(`600020`) and a well-known area name (`adyar`) resolves to the zone. -/
theorem identify_area_first_match_order_witness :
    (CivicMindAI.identify_area_from_query [(str "Zone_13_Adyar", {})]
      CivicMindAI.fallback_pincode_mapping (str "Flooding in 13 Adyar near 600020")).type
      = str "zone" :=
  ((identify_area_first_match_order [(str "Zone_13_Adyar", {})]
      CivicMindAI.fallback_pincode_mapping (str "Flooding in 13 Adyar near 600020")).1
    ⟨(str "Zone_13_Adyar", {}), by simp,
      ⟨str "flooding in ", str " near 600020", by decide⟩⟩).1

/-! ## Lemmas for normalization (C4) -/

theorem dropWhile_of_all_neg {p : Char → Bool} :
    ∀ s : Str, (∀ c ∈ s, p c = false) → s.dropWhile p = s := by
  intro s h
  cases s with
  | nil => rfl
  | cons c t => simp [List.dropWhile_cons, h c (by simp)]

theorem strip_of_no_space (s : Str) (h : ∀ c ∈ s, Py.isSpace c = false) :
    Py.strip s = s := by
  unfold Py.strip
  rw [dropWhile_of_all_neg s h, dropWhile_of_all_neg s.reverse (by simpa using h),
    List.reverse_reverse]

theorem wordsGo_of_no_space :
    ∀ (s acc : Str), (∀ c ∈ s, Py.isSpace c = false) →
      Py.wordsGo acc s = if acc.reverse ++ s = [] then [] else [acc.reverse ++ s] := by
  intro s
  induction s with
  | nil =>
    intro acc _
    by_cases h : acc = []
    · simp [Py.wordsGo, h]
    · simp [Py.wordsGo, h, List.isEmpty_iff]
  | cons c t ih =>
    intro acc h
    rw [show Py.wordsGo acc (c :: t) = Py.wordsGo (c :: acc) t from by
      simp [Py.wordsGo, h c (by simp)]]
    rw [ih (c :: acc) (fun d hd => h d (by simp [hd]))]
    simp

theorem collapse_of_no_space (s : Str) (h : ∀ c ∈ s, Py.isSpace c = false) :
    Py.collapse s = s := by
  unfold Py.collapse Py.words
  rw [wordsGo_of_no_space s [] h]
  cases s with
  | nil => simp [Py.joinSp, List.intercalate]
  | cons c t => simp [Py.joinSp, List.intercalate]

theorem subOf_singleton (c : Char) (s : Str) : SubOf [c] s ↔ c ∈ s := by
  constructor
  · intro h
    exact mem_of_subOf h c (by simp)
  · intro h
    rcases List.append_of_mem h with ⟨l, r, rfl⟩
    exact ⟨l, r, by simp⟩

theorem replaceGo_zero_of_not_sub (old new : Str) :
    ∀ s : Str, ¬ SubOf old s → Py.replaceGo old new 0 s = s := by
  intro s
  induction s with
  | nil => intro _; rfl
  | cons c t ih =>
    intro h
    have hl : Py.leadsWith old (c :: t) = false := by
      by_cases hb : Py.leadsWith old (c :: t) = true
      · rcases (leadsWith_iff old (c :: t)).mp hb with ⟨r, hr⟩
        exact absurd ⟨[], r, by simpa using hr⟩ h
      · simpa using hb
    simp only [Py.replaceGo, hl, Bool.false_eq_true, if_false, List.cons.injEq, true_and]
    exact ih (fun hs => h (subOf_cons_of old c t hs))

theorem replace_of_not_sub (old new s : Str) (h : ¬ SubOf old s) :
    Py.replace old new s = s := by
  by_cases ho : old = []
  · exact absurd ⟨[], s, by simp [ho]⟩ h
  · unfold Py.replace
    rw [if_neg (by simpa [List.isEmpty_iff] using ho)]
    exact replaceGo_zero_of_not_sub old new s h

theorem replaceGo_skip (old new : Str) :
    ∀ u v : Str, Py.replaceGo old new u.length (u ++ v) = Py.replaceGo old new 0 v := by
  intro u
  induction u with
  | nil => intro v; rfl
  | cons x u ih => intro v; simpa [Py.replaceGo] using ih v

theorem replaceGo_self (p : Str) (hp : p ≠ []) :
    ∀ (n : Nat) (s : Str), s.length ≤ n → Py.replaceGo p p 0 s = s := by
  intro n
  induction n with
  | zero =>
    intro s hs
    rw [List.eq_nil_of_length_eq_zero (Nat.le_zero.mp hs)]
    rfl
  | succ n ih =>
    intro s hs
    cases s with
    | nil => rfl
    | cons c t =>
      by_cases hl : Py.leadsWith p (c :: t) = true
      · rcases (leadsWith_iff p (c :: t)).mp hl with ⟨r, hr⟩
        cases p with
        | nil => exact absurd rfl hp
        | cons a p' =>
          simp only [List.cons_append, List.cons.injEq] at hr
          rcases hr with ⟨rfl, rfl⟩
          rw [show Py.replaceGo (c :: p') (c :: p') 0 (c :: (p' ++ r))
              = (c :: p') ++ Py.replaceGo (c :: p') (c :: p') ((c :: p').length - 1) (p' ++ r)
            from by simp [Py.replaceGo, hl]]
          rw [show (c :: p').length - 1 = p'.length from by simp]
          rw [replaceGo_skip]
          rw [ih r (by simp at hs; omega)]
          simp
      · have hlf : Py.leadsWith p (c :: t) = false := by simpa using hl
        simp only [Py.replaceGo, hlf, Bool.false_eq_true, if_false, List.cons.injEq, true_and]
        exact ih t (by simp at hs; omega)

theorem replace_self (p s : Str) : Py.replace p p s = s := by
  by_cases hp : p = []
  · simp [Py.replace, hp]
  · unfold Py.replace
    rw [if_neg (by simpa [List.isEmpty_iff] using hp)]
    exact replaceGo_self p hp s.length s (Nat.le_refl _)

theorem foldl_replace_del_of_not_mem :
    ∀ (cs s : Str), (∀ c ∈ cs, c ∉ s) →
      cs.foldl (fun acc c => Py.replace [c] [] acc) s = s := by
  intro cs
  induction cs with
  | nil => intro s _; rfl
  | cons c cs ih =>
    intro s h
    have h1 : Py.replace [c] [] s = s :=
      replace_of_not_sub [c] [] s (fun hs => h c (by simp) ((subOf_singleton c s).mp hs))
    simp only [List.foldl_cons, h1]
    exact ih s (fun d hd => h d (by simp [hd]))

theorem toNat_ofNat_valid {n : Nat} (h : n.isValidChar) : (Char.ofNat n).toNat = n := by
  rw [Char.ofNat, dif_pos h]
  rfl

theorem toLower_toLower (c : Char) : Char.toLower (Char.toLower c) = Char.toLower c := by
  simp only [Char.toLower]
  by_cases h : c.toNat ≥ 65 ∧ c.toNat ≤ 90
  · rw [if_pos h]
    have hv : Nat.isValidChar (c.toNat + 32) := Or.inl (by omega)
    rw [if_neg (by rw [toNat_ofNat_valid hv]; omega)]
  · rw [if_neg h, if_neg h]

theorem lower_idem (s : Str) : Py.lower (Py.lower s) = Py.lower s := by
  simp [Py.lower, List.map_map, Function.comp, toLower_toLower]

/-- Under the hypotheses of the amended C4, normalization is just lowercasing:
every stage after `lower` leaves the string unchanged. -/
theorem normalize_query_eq_lower (y : Str)
    (hsp : ∀ c ∈ Py.lower y, Py.isSpace c = false)
    (hpu : ∀ c ∈ Py.lower y, c ∉ CacheModule.chars_to_remove)
    (h1 : ¬ SubOf (str "tnagar") (Py.lower y))
    (h2 : ¬ SubOf (str "annanagar") (Py.lower y)) :
    CacheModule.normalize_query y = Py.lower y := by
  unfold CacheModule.normalize_query
  rw [strip_of_no_space _ hsp, collapse_of_no_space _ hsp]
  rw [foldl_replace_del_of_not_mem CacheModule.chars_to_remove (Py.lower y)
    (fun c hc hmem => hpu c hmem hc)]
  have hspace : ∀ p : Str, (' ' ∈ p) → ¬ SubOf p (Py.lower y) := by
    intro p hp hsub
    have : Py.isSpace ' ' = false := hsp ' ' (mem_of_subOf hsub ' ' hp)
    simp [Py.isSpace] at this
  simp only [CacheModule.area_variations, List.foldl_cons, List.foldl_nil]
  rw [replace_of_not_sub _ _ _ (hspace (str "t nagar") (by decide))]
  rw [replace_of_not_sub _ _ _ h1]
  rw [replace_of_not_sub _ _ _ (hspace (str "anna nagar") (by decide))]
  rw [replace_of_not_sub _ _ _ h2]
  rw [replace_self, replace_self]

/-! ## C4 — normalization idempotence -/

/-- C4 counterexample: normalization is not idempotent.  For the input
`"a ."`, collapsing whitespace happens before punctuation stripping, so
deleting the dot leaves a dangling trailing space which only a second pass
removes: `normalize("a .") = "a "` but `normalize("a ") = "a"`. -/
theorem normalize_query_not_idempotent :
    CacheModule.normalize_query (CacheModule.normalize_query (str "a ."))
      ≠ CacheModule.normalize_query (str "a .") := by decide

/-- C4, amended: `normalize` is idempotent on every input whose lowercase form
contains no whitespace, no character of the stripped punctuation set
`.,!?;:`, and no occurrence of the unspaced aliases `"tnagar"`/`"annanagar"`
(on such inputs every stage after lowercasing is the identity, and
lowercasing is idempotent); in general idempotence fails because deleting
punctuation after the whitespace collapse can leave dangling or doubled
spaces that only a second pass removes. -/
theorem normalize_query_idempotent_on_plain (x : Str)
    (hsp : ∀ c ∈ Py.lower x, Py.isSpace c = false)
    (hpu : ∀ c ∈ Py.lower x, c ∉ CacheModule.chars_to_remove)
    (h1 : ¬ SubOf (str "tnagar") (Py.lower x))
    (h2 : ¬ SubOf (str "annanagar") (Py.lower x)) :
    CacheModule.normalize_query (CacheModule.normalize_query x)
      = CacheModule.normalize_query x := by
  have e1 : CacheModule.normalize_query x = Py.lower x :=
    normalize_query_eq_lower x hsp hpu h1 h2
  have hyy : Py.lower (Py.lower x) = Py.lower x := lower_idem x
  have e2 : CacheModule.normalize_query (Py.lower x) = Py.lower (Py.lower x) :=
    normalize_query_eq_lower (Py.lower x) (by rw [hyy]; exact hsp) (by rw [hyy]; exact hpu)
      (by rw [hyy]; exact h1) (by rw [hyy]; exact h2)
  rw [e1, e2, hyy]

/-- Witness for the amended C4 at `"ADYAR"` (a non-fixed-point input: its
normalization lowercases it). -/
theorem normalize_query_idempotent_on_plain_witness :
    CacheModule.normalize_query (CacheModule.normalize_query (str "ADYAR"))
      = CacheModule.normalize_query (str "ADYAR") :=
  normalize_query_idempotent_on_plain (str "ADYAR") (by decide) (by decide)
    (fun hs => absurd ((subMatch_iff _ _).mpr hs) (by decide))
    (fun hs => absurd ((subMatch_iff _ _).mpr hs) (by decide))

/-! ## Dict lemmas -/

theorem dlookup_dinsert {α : Type} (m : List (Str × α)) (k : Str) (v : α) :
    dlookup (dinsert m k v) k = some v := by
  induction m with
  | nil => simp [dinsert, dlookup]
  | cons e t ih =>
    by_cases h : e.1 == k
    · simp [dinsert, dlookup, h]
    · simp [dinsert, dlookup, h, ih]

theorem mem_of_dlookup {α : Type} {m : List (Str × α)} {k : Str} {v : α}
    (h : dlookup m k = some v) : (k, v) ∈ m := by
  induction m with
  | nil => simp [dlookup] at h
  | cons e t ih =>
    obtain ⟨ek, ev⟩ := e
    by_cases he : ek = k
    · subst he
      simp [dlookup] at h
      subst h
      exact List.mem_cons_self _ _
    · simp [dlookup, beq_iff_eq, he] at h
      exact List.mem_cons_of_mem _ (ih h)

theorem dlookup_none_of_not_key {α : Type} {m : List (Str × α)} {k : Str}
    (h : k ∉ m.map Prod.fst) : dlookup m k = none := by
  induction m with
  | nil => rfl
  | cons e t ih =>
    obtain ⟨ek, ev⟩ := e
    simp only [List.map_cons, List.mem_cons] at h
    push_neg at h
    have he : ¬ ek = k := fun hk => h.1 hk.symm
    simp [dlookup, beq_iff_eq, he]
    exact ih h.2

theorem keys_dinsert_mem {α : Type} (m : List (Str × α)) (k : Str) (v : α) :
    ∀ x ∈ (dinsert m k v).map Prod.fst, x = k ∨ x ∈ m.map Prod.fst := by
  induction m with
  | nil => simp [dinsert]
  | cons e t ih =>
    obtain ⟨ek, ev⟩ := e
    by_cases he : ek = k
    · subst he
      intro x hx
      simp only [dinsert, beq_self_eq_true, if_true, List.map_cons, List.mem_cons] at hx
      simp only [List.map_cons, List.mem_cons]
      rcases hx with rfl | hx
      · exact Or.inl rfl
      · exact Or.inr (Or.inr hx)
    · intro x hx
      simp only [dinsert, beq_iff_eq, if_neg he, List.map_cons, List.mem_cons] at hx
      simp only [List.map_cons, List.mem_cons]
      rcases hx with rfl | hx
      · exact Or.inr (Or.inl rfl)
      · rcases ih x hx with h' | h'
        · exact Or.inl h'
        · exact Or.inr (Or.inr h')

theorem keysNodup_dinsert {α : Type} {m : List (Str × α)} (k : Str) (v : α)
    (h : CacheModule.KeysNodup m) : CacheModule.KeysNodup (dinsert m k v) := by
  induction m with
  | nil => simp [dinsert, CacheModule.KeysNodup]
  | cons e t ih =>
    obtain ⟨ek, ev⟩ := e
    unfold CacheModule.KeysNodup at h ⊢
    simp only [List.map_cons, List.nodup_cons] at h
    by_cases he : ek = k
    · subst he
      simp only [dinsert, beq_self_eq_true, if_true, List.map_cons, List.nodup_cons]
      exact h
    · have ht := ih h.2
      simp only [dinsert, beq_iff_eq, if_neg he, List.map_cons, List.nodup_cons]
      refine ⟨?_, ht⟩
      intro hmem
      rcases keys_dinsert_mem t k v ek hmem with h' | h'
      · exact he h'
      · exact h.1 h'

theorem mem_derase {α : Type} {m : List (Str × α)} {k : Str} {e : Str × α}
    (h : e ∈ derase m k) : e ∈ m := by
  induction m with
  | nil => simpa [derase] using h
  | cons f t ih =>
    obtain ⟨fk, fv⟩ := f
    by_cases hf : fk = k
    · subst hf
      simp [derase] at h
      exact List.mem_cons_of_mem _ h
    · simp only [derase, beq_iff_eq, if_neg hf, List.mem_cons] at h
      rcases h with rfl | h
      · exact List.mem_cons_self _ _
      · exact List.mem_cons_of_mem _ (ih h)

theorem mem_dinsert {α : Type} {m : List (Str × α)} {k : Str} {v : α} {e : Str × α}
    (h : e ∈ dinsert m k v) : e ∈ m ∨ e = (k, v) := by
  induction m with
  | nil => simpa [dinsert] using h
  | cons f t ih =>
    obtain ⟨fk, fv⟩ := f
    by_cases hf : fk = k
    · subst hf
      simp only [dinsert, beq_self_eq_true, if_true, List.mem_cons] at h
      rcases h with rfl | h
      · exact Or.inr rfl
      · exact Or.inl (List.mem_cons_of_mem _ h)
    · simp only [dinsert, beq_iff_eq, if_neg hf, List.mem_cons] at h
      rcases h with rfl | h
      · exact Or.inl (List.mem_cons_self _ _)
      · rcases ih h with h' | rfl
        · exact Or.inl (List.mem_cons_of_mem _ h')
        · exact Or.inr rfl

theorem dlookup_derase_self {α : Type} {m : List (Str × α)} (k : Str)
    (h : CacheModule.KeysNodup m) : dlookup (derase m k) k = none := by
  induction m with
  | nil => rfl
  | cons e t ih =>
    obtain ⟨ek, ev⟩ := e
    unfold CacheModule.KeysNodup at h
    simp only [List.map_cons, List.nodup_cons] at h
    by_cases he : ek = k
    · subst he
      simp only [derase, beq_self_eq_true, if_true]
      exact dlookup_none_of_not_key h.1
    · simp only [derase, beq_iff_eq, if_neg he, dlookup]
      exact ih h.2

/-! ## C3 — cache round-trip returns only the response string -/

/-- C3: evaluation at a concrete round trip.  `store` followed immediately by
`lookup` with a nonzero TTL finds the entry, but `get_cached_response` returns
`cached_item["response"]` — the bare response string — not a record carrying
the department and sources (contradicting its own `Optional[Dict]` annotation
and the dict-shaped value its caller `check_cache`/`process_civic_query`
expects). -/
theorem cache_round_trip_returns_bare_string :
    (CacheModule.get_cached_response
      (CacheModule.cache_response (CacheModule.initState 24) (str "water in adyar")
        (str "contact Metro Water") (str "Chennai Metro Water") [str "CMWSSB"] 5 true)
      (str "water in adyar") 5 true).1
    = some (str "contact Metro Water") := by decide

/-! ## C5 — TTL expiry -/

/-- C5: an entry stored at `t0` is not served at or after `t0 + ttl`: the
lookup returns absent and removes the expired entry from both the memory dict
and durable storage. -/
theorem cache_entry_expired_on_lookup (st : CacheModule.CacheState) (q r d : Str)
    (srcs : List Str) (t0 t : Nat) (hwf : CacheModule.WFState st)
    (ht : t0 + st.ttl_hours ≤ t) :
    (CacheModule.get_cached_response
        (CacheModule.cache_response st q r d srcs t0 true) q t true).1 = none ∧
    dlookup (CacheModule.get_cached_response
        (CacheModule.cache_response st q r d srcs t0 true) q t true).2.memory_cache
      (CacheModule.generate_cache_key q) = none ∧
    dlookup (CacheModule.get_cached_response
        (CacheModule.cache_response st q r d srcs t0 true) q t true).2.durable
      (CacheModule.generate_cache_key q) = none := by
  have hinv : ¬ (t < t0 + st.ttl_hours) := by omega
  have hmem := dlookup_dinsert st.memory_cache (CacheModule.generate_cache_key q)
    (⟨q, some r, d, srcs, some t0⟩ : CacheModule.CachedItem)
  have hdur := dlookup_dinsert st.durable (CacheModule.generate_cache_key q)
    (⟨CacheModule.FileData.good ⟨q, some r, d, srcs, some t0⟩, t0⟩ : CacheModule.PFile)
  simp only [CacheModule.cache_response, CacheModule.get_cached_response, if_true,
    CacheModule.is_cache_valid, hmem, hdur, CacheModule.persistentLookup,
    decide_eq_true_eq, hinv, if_false, Bool.not_true]
  refine ⟨rfl, ?_, ?_⟩
  · exact dlookup_derase_self _ (keysNodup_dinsert _ _ hwf.1)
  · exact dlookup_derase_self _ (keysNodup_dinsert _ _ hwf.2)

/-- Witness for C5 from the empty initial state at `t = t0 + ttl` exactly. -/
theorem cache_entry_expired_on_lookup_witness :
    (CacheModule.get_cached_response
        (CacheModule.cache_response (CacheModule.initState 24) (str "q") (str "r")
          (str "d") [] 3 true) (str "q") 27 true).1 = none :=
  (cache_entry_expired_on_lookup (CacheModule.initState 24) (str "q") (str "r") (str "d")
    [] 3 27 (by simp [CacheModule.WFState, CacheModule.KeysNodup, CacheModule.initState])
    (by simp [CacheModule.initState])).1

/-! ## C9 — durable-storage failures never surface -/

/-- C9: durable-storage failures are contained.  (a) A failed durable write
leaves the fresh in-memory entry in place and the durable store untouched;
(b) a failed durable read is counted as a miss, returns absent and deletes
nothing; (c) a malformed durable record — corrupt JSON, or a parsable record
missing its response field or carrying an unusable timestamp — yields absent
and is deleted by the lookup.  In every case the call returns normally (the
model functions are total). -/
theorem cache_io_failures_contained (st : CacheModule.CacheState) :
    (∀ (q r d : Str) (srcs : List Str) (now : Nat),
      dlookup (CacheModule.cache_response st q r d srcs now false).memory_cache
          (CacheModule.generate_cache_key q)
        = some ⟨q, some r, d, srcs, some now⟩ ∧
      (CacheModule.cache_response st q r d srcs now false).durable = st.durable) ∧
    (∀ (q : Str) (now : Nat),
      dlookup st.memory_cache (CacheModule.generate_cache_key q) = none →
      (CacheModule.get_cached_response st q now false).1 = none ∧
      (CacheModule.get_cached_response st q now false).2.durable = st.durable ∧
      (CacheModule.get_cached_response st q now false).2.misses = st.misses + 1) ∧
    (∀ (q : Str) (now : Nat) (f : CacheModule.PFile),
      dlookup st.memory_cache (CacheModule.generate_cache_key q) = none →
      dlookup st.durable (CacheModule.generate_cache_key q) = some f →
      (f.content = CacheModule.FileData.corrupt ∨
        ∃ i, f.content = CacheModule.FileData.good i ∧ (i.response = none ∨ i.timestamp = none)) →
      CacheModule.KeysNodup st.durable →
      (CacheModule.get_cached_response st q now true).1 = none ∧
      dlookup (CacheModule.get_cached_response st q now true).2.durable
        (CacheModule.generate_cache_key q) = none) := by
  refine ⟨?_, ?_, ?_⟩
  · intro q r d srcs now
    constructor
    · simp [CacheModule.cache_response, dlookup_dinsert]
    · simp [CacheModule.cache_response]
  · intro q now hm
    rcases hd : dlookup st.durable (CacheModule.generate_cache_key q) with _ | f
    · simp [CacheModule.get_cached_response, hm, CacheModule.persistentLookup, hd]
    · simp [CacheModule.get_cached_response, hm, CacheModule.persistentLookup, hd]
  · intro q now f hm hd hbad hnd
    rcases hbad with hc | ⟨i, hg, hri⟩
    · refine ⟨?_, ?_⟩
      · simp [CacheModule.get_cached_response, hm, CacheModule.persistentLookup, hd, hc]
      · simp only [CacheModule.get_cached_response, hm, CacheModule.persistentLookup, hd, hc]
        exact dlookup_derase_self _ hnd
    · have hval : CacheModule.is_cache_valid i now st.ttl_hours = false ∨ i.response = none := by
        rcases hri with hr | ht
        · exact Or.inr hr
        · exact Or.inl (by simp [CacheModule.is_cache_valid, ht])
      rcases hval with hv | hr
      · refine ⟨?_, ?_⟩
        · simp [CacheModule.get_cached_response, hm, CacheModule.persistentLookup, hd, hg, hv]
        · simp only [CacheModule.get_cached_response, hm, CacheModule.persistentLookup, hd,
            hg, hv, Bool.false_eq_true, if_false, Bool.not_true]
          exact dlookup_derase_self _ hnd
      · by_cases hv : CacheModule.is_cache_valid i now st.ttl_hours = true
        · refine ⟨?_, ?_⟩
          · simp [CacheModule.get_cached_response, hm, CacheModule.persistentLookup, hd, hg,
              hv, hr]
          · simp only [CacheModule.get_cached_response, hm, CacheModule.persistentLookup, hd,
              hg, hv, if_true, hr, Bool.not_true]
            exact dlookup_derase_self _ hnd
        · have hv' : CacheModule.is_cache_valid i now st.ttl_hours = false := by
            simpa using hv
          refine ⟨?_, ?_⟩
          · simp [CacheModule.get_cached_response, hm, CacheModule.persistentLookup, hd, hg, hv']
          · simp only [CacheModule.get_cached_response, hm, CacheModule.persistentLookup, hd,
              hg, hv', Bool.false_eq_true, if_false, Bool.not_true]
            exact dlookup_derase_self _ hnd

/-- Witness for C9 at concrete states: a failed write keeps the memory entry
and durable store; a failed read on a corrupt-record state is a miss; a
malformed (corrupt JSON) record is deleted by a lookup that returns absent. -/
theorem cache_io_failures_contained_witness :
    ((CacheModule.cache_response (CacheModule.initState 24) (str "q") (str "r") (str "d")
        [] 0 false).durable = (CacheModule.initState 24).durable) ∧
    ((CacheModule.get_cached_response
        { ttl_hours := 24, memory_cache := [],
          durable := [(CacheModule.generate_cache_key (str "q"),
            ⟨CacheModule.FileData.corrupt, 0⟩)],
          hits := 0, misses := 0, total_requests := 0 } (str "q") 0 false).1 = none) ∧
    ((CacheModule.get_cached_response
        { ttl_hours := 24, memory_cache := [],
          durable := [(CacheModule.generate_cache_key (str "q"),
            ⟨CacheModule.FileData.corrupt, 0⟩)],
          hits := 0, misses := 0, total_requests := 0 } (str "q") 0 true).1 = none ∧
      dlookup (CacheModule.get_cached_response
        { ttl_hours := 24, memory_cache := [],
          durable := [(CacheModule.generate_cache_key (str "q"),
            ⟨CacheModule.FileData.corrupt, 0⟩)],
          hits := 0, misses := 0, total_requests := 0 } (str "q") 0 true).2.durable
        (CacheModule.generate_cache_key (str "q")) = none) :=
  ⟨((cache_io_failures_contained (CacheModule.initState 24)).1 (str "q") (str "r") (str "d")
      [] 0).2,
    ((cache_io_failures_contained
        { ttl_hours := 24, memory_cache := [],
          durable := [(CacheModule.generate_cache_key (str "q"),
            ⟨CacheModule.FileData.corrupt, 0⟩)],
          hits := 0, misses := 0, total_requests := 0 }).2.1 (str "q") 0 rfl).1,
    (cache_io_failures_contained
        { ttl_hours := 24, memory_cache := [],
          durable := [(CacheModule.generate_cache_key (str "q"),
            ⟨CacheModule.FileData.corrupt, 0⟩)],
          hits := 0, misses := 0, total_requests := 0 }).2.2 (str "q") 0
      ⟨CacheModule.FileData.corrupt, 0⟩ rfl (by decide) (Or.inl rfl)
      (by simp [CacheModule.KeysNodup])⟩

/-! ## C10 — stats-counter invariant -/

theorem persistentLookup_step (st : CacheModule.CacheState) (key : Str) (now : Nat)
    (ro : Bool) (hg : CacheModule.GoodState st) :
    CacheModule.GoodState (CacheModule.persistentLookup st key now ro).2 ∧
    (CacheModule.persistentLookup st key now ro).2.hits
        + (CacheModule.persistentLookup st key now ro).2.misses
      = st.hits + st.misses + 1 ∧
    (CacheModule.persistentLookup st key now ro).2.total_requests = st.total_requests := by
  unfold CacheModule.persistentLookup
  rcases hd : dlookup st.durable key with _ | ⟨fc, fmt⟩
  · refine ⟨hg, ?_, rfl⟩
    show st.hits + (st.misses + 1) = st.hits + st.misses + 1
    omega
  · have hgderase : CacheModule.GoodState
        { st with durable := derase st.durable key, misses := st.misses + 1 } :=
      ⟨hg.1, fun e he i hgood => hg.2 e (mem_derase he) i hgood⟩
    cases ro with
    | false =>
      refine ⟨hg, ?_, rfl⟩
      show st.hits + (st.misses + 1) = st.hits + st.misses + 1
      omega
    | true =>
      cases fc with
      | corrupt =>
        refine ⟨hgderase, ?_, rfl⟩
        show st.hits + (st.misses + 1) = st.hits + st.misses + 1
        omega
      | good item =>
        obtain ⟨iq, ir, idep, isrc, its⟩ := item
        have hri : ir ≠ none :=
          hg.2 (key, ⟨CacheModule.FileData.good ⟨iq, ir, idep, isrc, its⟩, fmt⟩)
            (mem_of_dlookup hd) ⟨iq, ir, idep, isrc, its⟩ rfl
        dsimp only
        rw [if_neg (show ¬ ((!true) = true) by decide)]
        by_cases hv : CacheModule.is_cache_valid ⟨iq, ir, idep, isrc, its⟩ now st.ttl_hours = true
        · rw [if_pos hv]
          cases ir with
          | none => exact absurd rfl hri
          | some r =>
            refine ⟨⟨?_, hg.2⟩, ?_, rfl⟩
            · intro e he
              rcases mem_dinsert he with he' | rfl
              · exact hg.1 e he'
              · simp
            · show st.hits + 1 + st.misses = st.hits + st.misses + 1
              omega
        · rw [if_neg hv]
          refine ⟨hgderase, ?_, rfl⟩
          show st.hits + (st.misses + 1) = st.hits + st.misses + 1
          omega

theorem get_cached_response_step (st : CacheModule.CacheState) (q : Str) (now : Nat)
    (ro : Bool) (hg : CacheModule.GoodState st) :
    CacheModule.GoodState (CacheModule.get_cached_response st q now ro).2 ∧
    (CacheModule.get_cached_response st q now ro).2.hits
        + (CacheModule.get_cached_response st q now ro).2.misses
      = st.hits + st.misses + 1 ∧
    (CacheModule.get_cached_response st q now ro).2.total_requests
      = st.total_requests + 1 := by
  unfold CacheModule.get_cached_response
  dsimp only
  rcases hm : dlookup st.memory_cache (CacheModule.generate_cache_key q) with _ | item
  · have h := persistentLookup_step { st with total_requests := st.total_requests + 1 }
      (CacheModule.generate_cache_key q) now ro ⟨hg.1, hg.2⟩
    exact ⟨h.1, h.2.1, h.2.2⟩
  · obtain ⟨iq, ir, idep, isrc, its⟩ := item
    have hri : ir ≠ none :=
      hg.1 (CacheModule.generate_cache_key q, ⟨iq, ir, idep, isrc, its⟩) (mem_of_dlookup hm)
    dsimp only
    by_cases hv : CacheModule.is_cache_valid ⟨iq, ir, idep, isrc, its⟩ now st.ttl_hours = true
    · rw [if_pos hv]
      cases ir with
      | none => exact absurd rfl hri
      | some r =>
        refine ⟨hg, ?_, rfl⟩
        show st.hits + 1 + st.misses = st.hits + st.misses + 1
        omega
    · rw [if_neg hv]
      have h := persistentLookup_step
        { st with total_requests := st.total_requests + 1,
                  memory_cache := derase st.memory_cache (CacheModule.generate_cache_key q) }
        (CacheModule.generate_cache_key q) now ro
        ⟨fun e he => hg.1 e (mem_derase he), hg.2⟩
      exact ⟨h.1, h.2.1, h.2.2⟩

theorem cache_response_step (st : CacheModule.CacheState) (q r d : Str) (srcs : List Str)
    (now : Nat) (wo : Bool) (hg : CacheModule.GoodState st) :
    CacheModule.GoodState (CacheModule.cache_response st q r d srcs now wo) ∧
    (CacheModule.cache_response st q r d srcs now wo).hits = st.hits ∧
    (CacheModule.cache_response st q r d srcs now wo).misses = st.misses ∧
    (CacheModule.cache_response st q r d srcs now wo).total_requests
      = st.total_requests := by
  have hmem : ∀ e ∈ dinsert st.memory_cache (CacheModule.generate_cache_key q)
      (⟨q, some r, d, srcs, some now⟩ : CacheModule.CachedItem), e.2.response ≠ none := by
    intro e he
    rcases mem_dinsert he with he' | rfl
    · exact hg.1 e he'
    · simp
  cases wo with
  | false => exact ⟨⟨hmem, hg.2⟩, rfl, rfl, rfl⟩
  | true =>
    refine ⟨⟨hmem, ?_⟩, rfl, rfl, rfl⟩
    intro e he i hgood
    rcases mem_dinsert he with he' | rfl
    · exact hg.2 e he' i hgood
    · simp at hgood
      rw [← hgood]
      simp

theorem runOps_good_balanced (ops : List CacheModule.CacheOp) :
    ∀ st : CacheModule.CacheState, CacheModule.GoodState st → CacheModule.statsBalanced st →
      CacheModule.GoodState (CacheModule.runOps st ops) ∧
      CacheModule.statsBalanced (CacheModule.runOps st ops) := by
  induction ops with
  | nil => exact fun st hg hb => ⟨hg, hb⟩
  | cons op ops ih =>
    intro st hg hb
    have hstep : CacheModule.GoodState (CacheModule.applyOp st op) ∧
        CacheModule.statsBalanced (CacheModule.applyOp st op) := by
      cases op with
      | look q now ro =>
        have h := get_cached_response_step st q now ro hg
        have h21 := h.2.1
        have h22 := h.2.2
        refine ⟨h.1, ?_⟩
        show CacheModule.statsBalanced (CacheModule.get_cached_response st q now ro).2
        unfold CacheModule.statsBalanced at hb ⊢
        omega
      | put q r d srcs now wo =>
        have h := cache_response_step st q r d srcs now wo hg
        refine ⟨h.1, ?_⟩
        show CacheModule.statsBalanced (CacheModule.cache_response st q r d srcs now wo)
        unfold CacheModule.statsBalanced at hb ⊢
        rw [h.2.1, h.2.2.1, h.2.2.2]
        exact hb
    have := ih (CacheModule.applyOp st op) hstep.1 hstep.2
    simpa [CacheModule.runOps, List.foldl_cons] using this

/-- C10, amended: starting from any state in which every reachable record
carries its response field (true of everything the module itself writes), any
sequence of lookups and stores keeps `hits + misses = totalRequests`; the
reported hit-rate percentage is `hits / (hits + misses) * 100` rounded to two
decimals, and `0` when no requests were made.  Without the proviso the
invariant fails: a persisted record with a valid timestamp but no response
field makes one lookup increment both `hits` and `misses`
(see the counterexample). -/
theorem cache_stats_invariant_amended (st : CacheModule.CacheState)
    (ops : List CacheModule.CacheOp) (hg : CacheModule.GoodState st)
    (hb : CacheModule.statsBalanced st) :
    CacheModule.statsBalanced (CacheModule.runOps st ops) ∧
    ((CacheModule.runOps st ops).total_requests = 0 →
      (CacheModule.get_cache_stats (CacheModule.runOps st ops)).hit_rate_percentage = 0) ∧
    ((CacheModule.runOps st ops).total_requests ≠ 0 →
      (CacheModule.get_cache_stats (CacheModule.runOps st ops)).hit_rate_percentage
        = CacheModule.round2 (((CacheModule.runOps st ops).hits : Rat)
            / ((((CacheModule.runOps st ops).hits + (CacheModule.runOps st ops).misses : Nat)) : Rat)
            * 100)) := by
  obtain ⟨hgood, hbal⟩ := runOps_good_balanced ops st hg hb
  refine ⟨hbal, ?_, ?_⟩
  · intro h0
    simp [CacheModule.get_cache_stats, h0, CacheModule.round2]
  · intro h0
    unfold CacheModule.statsBalanced at hbal
    dsimp only [CacheModule.get_cache_stats]
    rw [if_pos (Nat.pos_of_ne_zero h0), hbal]

/-- C10 counterexample: a persisted record with a valid timestamp but no
`"response"` field makes a single lookup increment `totalRequests` once but
both `hits` and `misses` (the hit is counted before `cached_item["response"]`
raises `KeyError`, and the handler then counts a miss), so
`hits + misses = totalRequests + 1`. -/
theorem cache_stats_invariant_counterexample :
    (CacheModule.get_cached_response
        { ttl_hours := 24, memory_cache := [],
          durable := [(CacheModule.generate_cache_key (str "q"),
            ⟨CacheModule.FileData.good ⟨str "q", none, str "d", [], some 0⟩, 0⟩)],
          hits := 0, misses := 0, total_requests := 0 } (str "q") 0 true).2.hits = 1 ∧
    (CacheModule.get_cached_response
        { ttl_hours := 24, memory_cache := [],
          durable := [(CacheModule.generate_cache_key (str "q"),
            ⟨CacheModule.FileData.good ⟨str "q", none, str "d", [], some 0⟩, 0⟩)],
          hits := 0, misses := 0, total_requests := 0 } (str "q") 0 true).2.misses = 1 ∧
    (CacheModule.get_cached_response
        { ttl_hours := 24, memory_cache := [],
          durable := [(CacheModule.generate_cache_key (str "q"),
            ⟨CacheModule.FileData.good ⟨str "q", none, str "d", [], some 0⟩, 0⟩)],
          hits := 0, misses := 0, total_requests := 0 } (str "q") 0 true).2.total_requests = 1 ∧
    ¬ CacheModule.statsBalanced
      (CacheModule.get_cached_response
        { ttl_hours := 24, memory_cache := [],
          durable := [(CacheModule.generate_cache_key (str "q"),
            ⟨CacheModule.FileData.good ⟨str "q", none, str "d", [], some 0⟩, 0⟩)],
          hits := 0, misses := 0, total_requests := 0 } (str "q") 0 true).2 := by
  refine ⟨by decide, by decide, by decide, ?_⟩
  intro hbal
  unfold CacheModule.statsBalanced at hbal
  exact absurd hbal (by decide)

/-- Witness for the amended C10 from the empty initial state over a
miss/store/hit sequence. -/
theorem cache_stats_invariant_amended_witness :
    CacheModule.statsBalanced (CacheModule.runOps (CacheModule.initState 24)
      [CacheModule.CacheOp.look (str "a") 0 true,
       CacheModule.CacheOp.put (str "a") (str "r") (str "d") [] 0 true,
       CacheModule.CacheOp.look (str "a") 1 true]) :=
  (cache_stats_invariant_amended (CacheModule.initState 24)
    [CacheModule.CacheOp.look (str "a") 0 true,
     CacheModule.CacheOp.put (str "a") (str "r") (str "d") [] 0 true,
     CacheModule.CacheOp.look (str "a") 1 true]
    (by constructor <;> simp [CacheModule.initState])
    rfl).1

/-! ## Sorting lemmas (C8) -/

theorem insKey_perm {α : Type} (k : α → Int) (x : α) :
    ∀ l : List α, List.Perm (insKey k x l) (x :: l) := by
  intro l
  induction l with
  | nil => exact List.Perm.refl _
  | cons y t ih =>
    by_cases h : k y ≤ k x
    · simp only [insKey, if_pos h]
      exact ((ih.cons y).trans (List.Perm.swap x y t))
    · simp only [insKey, if_neg h]
      exact List.Perm.refl _

theorem sortK_foldl_perm {α : Type} (k : α → Int) :
    ∀ (l acc : List α),
      List.Perm (List.foldl (fun a x => insKey k x a) acc l) (acc ++ l) := by
  intro l
  induction l with
  | nil => intro acc; simp
  | cons x l ih =>
    intro acc
    have h1 : List.Perm (List.foldl (fun a x => insKey k x a) (insKey k x acc) l)
        (insKey k x acc ++ l) := ih (insKey k x acc)
    have h2 : List.Perm (insKey k x acc ++ l) ((x :: acc) ++ l) :=
      (insKey_perm k x acc).append_right l
    have h3 : List.Perm (acc ++ x :: l) (x :: (acc ++ l)) := List.perm_middle
    simpa using (h1.trans h2).trans h3.symm

theorem sortK_perm {α : Type} (k : α → Int) (l : List α) : List.Perm (sortK k l) l := by
  simpa using sortK_foldl_perm k l []

theorem insKey_pairwise {α : Type} (k : α → Int) (x : α) {l : List α}
    (h : l.Pairwise (fun a b => k a ≤ k b)) :
    (insKey k x l).Pairwise (fun a b => k a ≤ k b) := by
  induction l with
  | nil => simp [insKey]
  | cons y t ih =>
    rcases List.pairwise_cons.mp h with ⟨hy, ht⟩
    by_cases hle : k y ≤ k x
    · simp only [insKey, if_pos hle]
      refine List.pairwise_cons.mpr ⟨?_, ih ht⟩
      intro z hz
      rcases List.mem_cons.mp ((insKey_perm k x t).mem_iff.mp hz) with rfl | hz'
      · exact hle
      · exact hy z hz'
    · simp only [insKey, if_neg hle]
      refine List.pairwise_cons.mpr ⟨?_, h⟩
      intro z hz
      have hxy : k x ≤ k y := le_of_lt (lt_of_not_le hle)
      rcases List.mem_cons.mp hz with rfl | hz'
      · exact hxy
      · exact le_trans hxy (hy z hz')

theorem sortK_pairwise {α : Type} (k : α → Int) (l : List α) :
    (sortK k l).Pairwise (fun a b => k a ≤ k b) := by
  have key : ∀ (l acc : List α), acc.Pairwise (fun a b => k a ≤ k b) →
      (List.foldl (fun a x => insKey k x a) acc l).Pairwise (fun a b => k a ≤ k b) := by
    intro l
    induction l with
    | nil => exact fun acc h => h
    | cons x l ih => exact fun acc h => ih _ (insKey_pairwise k x h)
  simpa [sortK] using key l [] (by simp)

theorem insKey_filter {α : Type} (k : α → Int) (x : α) (v : Int) :
    ∀ l : List α, l.Pairwise (fun a b => k a ≤ k b) →
      (insKey k x l).filter (fun y => k y == v)
        = if k x == v then l.filter (fun y => k y == v) ++ [x]
          else l.filter (fun y => k y == v) := by
  intro l
  induction l with
  | nil =>
    intro _
    by_cases h : k x == v <;> simp [insKey, List.filter, h]
  | cons y t ih =>
    intro hp
    rcases List.pairwise_cons.mp hp with ⟨hy, ht⟩
    by_cases hle : k y ≤ k x
    · rw [show insKey k x (y :: t) = y :: insKey k x t from by simp [insKey, hle]]
      rw [List.filter_cons, ih ht, List.filter_cons]
      by_cases hxv : k x == v <;> by_cases hyv : k y == v <;> simp [hxv, hyv]
    · simp only [insKey, if_neg hle]
      by_cases hxv : k x == v
      · have hxval : k x = v := by simpa using hxv
        have hrest : (y :: t).filter (fun y => k y == v) = [] := by
          rw [List.filter_eq_nil_iff]
          intro z hz
          have hzy : k y ≤ k z := by
            rcases List.mem_cons.mp hz with rfl | hz'
            · exact le_refl _
            · exact hy z hz'
          have : k x < k z := lt_of_lt_of_le (lt_of_not_le hle) hzy
          simp only [beq_iff_eq]
          omega
        rw [List.filter_cons]
        simp only [hxv, if_pos, hrest]
        simp [hxval]
      · rw [List.filter_cons]
        simp [hxv]

theorem sortK_filter {α : Type} (k : α → Int) (v : Int) (l : List α) :
    (sortK k l).filter (fun y => k y == v) = l.filter (fun y => k y == v) := by
  have key : ∀ (l acc : List α), acc.Pairwise (fun a b => k a ≤ k b) →
      (List.foldl (fun a x => insKey k x a) acc l).filter (fun y => k y == v)
        = acc.filter (fun y => k y == v) ++ l.filter (fun y => k y == v) := by
    intro l
    induction l with
    | nil => intro acc _; simp
    | cons x l ih =>
      intro acc hacc
      rw [List.foldl_cons, ih _ (insKey_pairwise k x hacc), insKey_filter k x v acc hacc,
        List.filter_cons]
      by_cases hxv : k x == v <;> simp [hxv]
  simpa [sortK] using key l [] (by simp)

/-! ## C8 — eviction bounds -/

/-- C8, with the two eviction clauses under their own independent conditions:
whenever the memory dict holds more than 1000 entries — regardless of the
durable count — `optimize_cache` leaves exactly 1000 memory entries, a
most-recent-by-timestamp selection (every kept entry's timestamp is at least
every dropped entry's) with ties kept stably in current order (per-key
filters of the kept list are prefixes of those of the input); the durable
outcome never depends on the memory dict, and when the durable count is
within its 5000 bound the durable store is untouched — so the memory-side
eviction touches no durable copies; and whenever the cache directory holds
more than 5000 files — regardless of the memory count — exactly the 5000
newest-by-mtime files remain. -/
theorem optimize_cache_bounds (st : CacheModule.CacheState) :
    (1000 < st.memory_cache.length →
      (CacheModule.optimize_cache st).memory_cache.length = 1000 ∧
      (∃ dropped,
        List.Perm ((CacheModule.optimize_cache st).memory_cache ++ dropped)
          st.memory_cache ∧
        ∀ e ∈ (CacheModule.optimize_cache st).memory_cache, ∀ f ∈ dropped,
          CacheModule.tsNum f.2.timestamp ≤ CacheModule.tsNum e.2.timestamp) ∧
      (∀ v : Int, (CacheModule.optimize_cache st).memory_cache.filter
          (fun e => CacheModule.memKey e == v)
        <+: st.memory_cache.filter (fun e => CacheModule.memKey e == v))) ∧
    ((CacheModule.optimize_cache { st with memory_cache := [] }).durable
      = (CacheModule.optimize_cache st).durable) ∧
    (st.durable.length ≤ 5000 →
      (CacheModule.optimize_cache st).durable = st.durable) ∧
    (5000 < st.durable.length →
      (CacheModule.optimize_cache st).durable.length = 5000 ∧
      (∃ removed,
        List.Perm (removed ++ (CacheModule.optimize_cache st).durable) st.durable ∧
        ∀ e ∈ (CacheModule.optimize_cache st).durable, ∀ f ∈ removed,
          f.2.mtime ≤ e.2.mtime)) := by
  refine ⟨?_, rfl, ?_, ?_⟩
  · intro hmem
    have hmemq : (CacheModule.optimize_cache st).memory_cache
        = (sortK CacheModule.memKey st.memory_cache).take 1000 := by
      simp [CacheModule.optimize_cache, Nat.lt_iff_add_one_le, hmem, gt_iff_lt,
        if_pos hmem]
    have hmperm := sortK_perm CacheModule.memKey st.memory_cache
    have hmlen : (sortK CacheModule.memKey st.memory_cache).length
        = st.memory_cache.length := hmperm.length_eq
    have hmsort := sortK_pairwise CacheModule.memKey st.memory_cache
    refine ⟨?_, ?_, ?_⟩
    · rw [hmemq, List.length_take, hmlen]
      omega
    · refine ⟨(sortK CacheModule.memKey st.memory_cache).drop 1000, ?_, ?_⟩
      · rw [hmemq, List.take_append_drop]
        exact hmperm
      · rw [hmemq]
        intro e he f hf
        have hcross : CacheModule.memKey e ≤ CacheModule.memKey f := by
          have hsplit := List.take_append_drop 1000
            (sortK CacheModule.memKey st.memory_cache)
          have := hmsort
          rw [← hsplit, List.pairwise_append] at this
          exact this.2.2 e he f hf
        unfold CacheModule.memKey at hcross
        omega
    · intro v
      have hfilter := sortK_filter CacheModule.memKey v st.memory_cache
      rw [hmemq, ← hfilter]
      have hsplit := List.take_append_drop 1000 (sortK CacheModule.memKey st.memory_cache)
      refine ⟨((sortK CacheModule.memKey st.memory_cache).drop 1000).filter
        (fun e => CacheModule.memKey e == v), ?_⟩
      rw [← List.filter_append, hsplit]
  · intro hdur
    simp only [CacheModule.optimize_cache]
    rw [if_neg (by omega)]
  · intro hdur
    have hdurq : (CacheModule.optimize_cache st).durable
        = (sortK CacheModule.durKey st.durable).drop (st.durable.length - 5000) := by
      simp [CacheModule.optimize_cache, gt_iff_lt, if_pos hdur]
    have hdperm := sortK_perm CacheModule.durKey st.durable
    have hdlen : (sortK CacheModule.durKey st.durable).length
        = st.durable.length := hdperm.length_eq
    have hdsort := sortK_pairwise CacheModule.durKey st.durable
    constructor
    · rw [hdurq, List.length_drop, hdlen]
      omega
    · refine ⟨(sortK CacheModule.durKey st.durable).take (st.durable.length - 5000), ?_, ?_⟩
      · rw [hdurq, List.take_append_drop]
        exact hdperm
      · rw [hdurq]
        intro e he f hf
        have hcross : CacheModule.durKey f ≤ CacheModule.durKey e := by
          have hsplit := List.take_append_drop (st.durable.length - 5000)
            (sortK CacheModule.durKey st.durable)
          have := hdsort
          rw [← hsplit, List.pairwise_append] at this
          exact this.2.2 f hf e he
        unfold CacheModule.durKey at hcross
        omega

/-- Witness for C8 exercising the two conditions independently: a state with
1001 memory entries but only 3 durable files (the `capacity + k` scenario —
its memory dict is trimmed to 1000 and its durable store is untouched), and a
state with an empty memory dict but 5001 durable files (trimmed to 5000). -/
theorem optimize_cache_bounds_witness :
    ((CacheModule.optimize_cache
      { ttl_hours := 24,
        memory_cache := (List.range 1001).map
          (fun i => ([], ⟨[], some [], [], [], some i⟩)),
        durable := (List.range 3).map
          (fun i => ([], ⟨CacheModule.FileData.corrupt, i⟩)),
        hits := 0, misses := 0, total_requests := 0 }).memory_cache.length = 1000 ∧
     (CacheModule.optimize_cache
      { ttl_hours := 24,
        memory_cache := (List.range 1001).map
          (fun i => ([], ⟨[], some [], [], [], some i⟩)),
        durable := (List.range 3).map
          (fun i => ([], ⟨CacheModule.FileData.corrupt, i⟩)),
        hits := 0, misses := 0, total_requests := 0 }).durable
       = (List.range 3).map (fun i => ([], ⟨CacheModule.FileData.corrupt, i⟩))) ∧
    (CacheModule.optimize_cache
      { ttl_hours := 24,
        memory_cache := [],
        durable := (List.range 5001).map
          (fun i => ([], ⟨CacheModule.FileData.corrupt, i⟩)),
        hits := 0, misses := 0, total_requests := 0 }).durable.length = 5000 :=
  ⟨⟨((optimize_cache_bounds
      { ttl_hours := 24,
        memory_cache := (List.range 1001).map
          (fun i => ([], ⟨[], some [], [], [], some i⟩)),
        durable := (List.range 3).map
          (fun i => ([], ⟨CacheModule.FileData.corrupt, i⟩)),
        hits := 0, misses := 0, total_requests := 0 }).1 (by simp)).1,
    (optimize_cache_bounds
      { ttl_hours := 24,
        memory_cache := (List.range 1001).map
          (fun i => ([], ⟨[], some [], [], [], some i⟩)),
        durable := (List.range 3).map
          (fun i => ([], ⟨CacheModule.FileData.corrupt, i⟩)),
        hits := 0, misses := 0, total_requests := 0 }).2.2.1 (by simp)⟩,
   ((optimize_cache_bounds
      { ttl_hours := 24,
        memory_cache := [],
        durable := (List.range 5001).map
          (fun i => ([], ⟨CacheModule.FileData.corrupt, i⟩)),
        hits := 0, misses := 0, total_requests := 0 }).2.2.2 (by simp)).1⟩

/-! ## C1 — the pipeline always returns a result -/

theorem generate_fallback_response_ne_nil (i a : Str) (c : CivicMindAI.CivicInfo) :
    CivicMindAI.generate_fallback_response i a c ≠ [] :=
  List.cons_ne_nil _ _

theorem missPath_spec (env : CivicMindAI.PipelineEnv) (st : CacheModule.CacheState)
    (q : Str) (tStart tNow : Nat)
    (hai : ∀ t, env.ai = some (Except.ok t) → Py.strip t ≠ []) :
    (CivicMindAI.missPath env st q tStart tNow).1.response ≠ [] ∧
    ((CivicMindAI.missPath env st q tStart tNow).1.error.isSome →
      (CivicMindAI.missPath env st q tStart tNow).1.response = CivicMindAI.error_message ∧
      (CivicMindAI.missPath env st q tStart tNow).1.department = str "System" ∧
      (CivicMindAI.missPath env st q tStart tNow).1.cache_hit = false ∧
      (CivicMindAI.missPath env st q tStart tNow).1.processing_time = tNow - tStart) := by
  obtain ⟨zs, deps, pmap, rag, ai, fl, ro, wo⟩ := env
  unfold CivicMindAI.missPath
  dsimp only
  cases fl with
  | error e =>
    refine ⟨?_, fun _ => ⟨rfl, rfl, rfl, rfl⟩⟩
    show CivicMindAI.error_message ≠ []
    decide
  | ok u =>
    constructor
    · cases ai with
      | none => exact generate_fallback_response_ne_nil _ _ _
      | some exc =>
        cases exc with
        | ok t => exact hai t rfl
        | error e => exact generate_fallback_response_ne_nil _ _ _
    · intro herr
      cases ai with
      | none => simp at herr
      | some exc =>
        cases exc with
        | ok t => simp at herr
        | error e => simp at herr

/-- C1, amended: for every query, model name, cache state, clock and
environment, `process_civic_query` returns a `PipelineResult` and never
propagates an exception (the model function is total over all oracle
outcomes, including a raising feedback recorder and the string-subscript
`TypeError` of the cache-hit branch); whenever the result records an internal
failure it carries the fixed apologetic message, `department = "System"`,
`cacheHit = false`, and the elapsed time; and its response text is non-empty
provided that a configured, successful external generative call returns
non-whitespace text — without that proviso the response can be empty (see the
counterexample). -/
theorem process_civic_query_total_amended (env : CivicMindAI.PipelineEnv)
    (st : CacheModule.CacheState) (q model : Str) (tStart tNow : Nat)
    (hai : ∀ t, env.ai = some (Except.ok t) → Py.strip t ≠ []) :
    (CivicMindAI.process_civic_query env st q model tStart tNow).1.response ≠ [] ∧
    ((CivicMindAI.process_civic_query env st q model tStart tNow).1.error.isSome →
      (CivicMindAI.process_civic_query env st q model tStart tNow).1.response
        = CivicMindAI.error_message ∧
      (CivicMindAI.process_civic_query env st q model tStart tNow).1.department
        = str "System" ∧
      (CivicMindAI.process_civic_query env st q model tStart tNow).1.cache_hit = false ∧
      (CivicMindAI.process_civic_query env st q model tStart tNow).1.processing_time
        = tNow - tStart) := by
  unfold CivicMindAI.process_civic_query
  dsimp only
  split
  next c hc =>
    cases c with
    | nil => exact missPath_spec env _ q tStart tNow hai
    | cons d cs =>
      refine ⟨?_, fun _ => ⟨rfl, rfl, rfl, rfl⟩⟩
      show CivicMindAI.error_message ≠ []
      decide
  next hc => exact missPath_spec env _ q tStart tNow hai

/-- C1 counterexample: with an API key configured and the external generative
call succeeding with whitespace-only text, the pipeline returns a
`PipelineResult` whose response text is empty, refuting the unconditional
non-emptiness of the claim. -/
theorem process_civic_query_empty_response_counterexample :
    (CivicMindAI.process_civic_query
      { demoEnv with ai := some (Except.ok (str " ")) }
      (CacheModule.initState 24) (str "hello") (str "gpt-3.5-turbo") 0 0).1.response
      = [] := by decide

/-- Witness for the amended C1 in the shipped no-API-key configuration. -/
theorem process_civic_query_total_amended_witness :
    (CivicMindAI.process_civic_query demoEnv (CacheModule.initState 24)
      (str "water leak in Mylapore") (str "gpt-4") 0 0).1.response ≠ [] :=
  (process_civic_query_total_amended demoEnv (CacheModule.initState 24)
    (str "water leak in Mylapore") (str "gpt-4") 0 0 (by simp [demoEnv])).1

/-! ## C2 — the cache-hit path errors instead of reporting a hit -/

/-- C2: evaluation of the same query submitted twice.  The first call is a
miss (`cacheHit = false`, department `Greater Chennai Corporation`).  On the
second call `check_cache` returns the cached response *string* (what
`get_cached_response` returns), the truthiness test passes, and
`cached_response["response"]` raises `TypeError` (a str subscripted with a
str), so the handler returns the apologetic result: `cacheHit = false` again
and `department = "System"` ≠ the first call's department — not
`cacheHit = true` with the department preserved, as claimed. -/
theorem second_identical_query_yields_system_error :
    (CivicMindAI.process_civic_query demoEnv (CacheModule.initState 24)
      (str "garbage collection in adyar") (str "gpt-3.5-turbo") 0 0).1.cache_hit = false ∧
    (CivicMindAI.process_civic_query demoEnv (CacheModule.initState 24)
      (str "garbage collection in adyar") (str "gpt-3.5-turbo") 0 0).1.department
      = str "Greater Chennai Corporation" ∧
    (CivicMindAI.process_civic_query demoEnv
      (CivicMindAI.process_civic_query demoEnv (CacheModule.initState 24)
        (str "garbage collection in adyar") (str "gpt-3.5-turbo") 0 0).2
      (str "garbage collection in adyar") (str "gpt-3.5-turbo") 0 0).1.cache_hit = false ∧
    (CivicMindAI.process_civic_query demoEnv
      (CivicMindAI.process_civic_query demoEnv (CacheModule.initState 24)
        (str "garbage collection in adyar") (str "gpt-3.5-turbo") 0 0).2
      (str "garbage collection in adyar") (str "gpt-3.5-turbo") 0 0).1.department
      = str "System" ∧
    (CivicMindAI.process_civic_query demoEnv
      (CivicMindAI.process_civic_query demoEnv (CacheModule.initState 24)
        (str "garbage collection in adyar") (str "gpt-3.5-turbo") 0 0).2
      (str "garbage collection in adyar") (str "gpt-3.5-turbo") 0 0).1.response
      = CivicMindAI.error_message ∧
    ¬ (CivicMindAI.process_civic_query demoEnv
        (CivicMindAI.process_civic_query demoEnv (CacheModule.initState 24)
          (str "garbage collection in adyar") (str "gpt-3.5-turbo") 0 0).2
        (str "garbage collection in adyar") (str "gpt-3.5-turbo") 0 0).1.department
      = (CivicMindAI.process_civic_query demoEnv (CacheModule.initState 24)
          (str "garbage collection in adyar") (str "gpt-3.5-turbo") 0 0).1.department := by
  decide
